import Mathlib

/-!
# ledfx_v3: streaming bridge, AirPlay player, RTSP client, effect registry

A shallow embedding of the Go sources

* `audio/audiobridge/local.go`   (`Bridge.StartLocalInput`)
* `handlers/rtsp/client.go`      (`NewClient`, `Client.Send`)
* `integrations/airplay2/player.go` (`audioPlayer`, byte/sample conversion, `prepareVolume`)
* `effect/effects.go`            (`New`, `Get`, `Destroy`)

Conventions.  A Go panic is a value: a function that can panic returns `Option`
(`none` = panic), a pair of the state reached and a flag, or an `rtsp.Ret`.  A Go
`byte` is `Fin 256`, a Go `[]byte` a `GoSlice`: its bytes and the spare bytes of its
backing array up to the capacity.  A nil Go map is `none`.
A Go `int16` is the integer denoted by a 16-bit pattern (`int16OfBits`), a Go `int64`
is an integer wrapped into `[-2^63, 2^63)` (`wrapInt64`).  `float64` volumes are exact
rationals.  Collaborators whose code is outside the listed files (codec, writers,
network connection, capture device) are parameters.  Calls of the logger are left out.
The processing goroutine of the player and the controlling side are interleaved at the
granularity of one loop iteration (`airplay2.Sys.step`).
-/

namespace Ledfx

/-! ## Machine integers and bytes -/

/-- A Go `byte`. -/
abbrev Byte := Fin 256

/-- The `int16` value denoted by the low 16 bits of `bits` (two's complement). -/
def int16OfBits (bits : Nat) : Int :=
  if bits % 65536 < 32768 then (bits % 65536 : Nat) else ((bits % 65536 : Nat) : Int) - 65536

/-- The 16-bit pattern of an integer (what a conversion to `int16`/`uint16` keeps). -/
def bitsOfInt16 (s : Int) : Nat := (s % 65536).toNat

/-- Low byte of a 16-bit sample (little-endian encoding, first byte). -/
def lowByte (s : Int) : Byte := ⟨bitsOfInt16 s % 256, Nat.mod_lt _ (by decide)⟩

/-- High byte of a 16-bit sample (little-endian encoding, second byte). -/
def highByte (s : Int) : Byte := ⟨bitsOfInt16 s / 256 % 256, Nat.mod_lt _ (by decide)⟩

/-- Wrap an integer into the `int64` range, as Go's signed arithmetic does. -/
def wrapInt64 (n : Int) : Int := (n + 2 ^ 63) % 2 ^ 64 - 2 ^ 63

/-- Source `strconv.FormatInt(i, base)` (Go standard library): the digits of `i` in
`base`, with a leading minus sign for a negative `i`. -/
def FormatInt (i : Int) (base : Nat) : String :=
  match i with
  | Int.ofNat n => (Nat.toDigits base n).asString
  | Int.negSucc n => "-" ++ (Nat.toDigits base (n + 1)).asString

/-- Source `strconv.Itoa(i)` (Go standard library): `FormatInt(int64(i), 10)`. -/
def Itoa (i : Int) : String := FormatInt i 10

/-! ## Go maps -/

/-- A Go `map[κ]ν` as an association list read through `GoMap.get`. -/
abbrev GoMap (κ ν : Type) := List (κ × ν)

/-- Lookup `v, exists := m[k]`. -/
def GoMap.get {κ ν : Type} [DecidableEq κ] : GoMap κ ν → κ → Option ν
  | [], _ => none
  | (k', v) :: m, k => if k' = k then some v else GoMap.get m k

/-- Delete `delete(m, k)`. -/
def GoMap.delete {κ ν : Type} [DecidableEq κ] (m : GoMap κ ν) (k : κ) : GoMap κ ν :=
  m.filter (fun kv => decide (kv.1 ≠ k))

/-- Assignment `m[k] = v`. -/
def GoMap.set {κ ν : Type} [DecidableEq κ] (m : GoMap κ ν) (k : κ) (v : ν) : GoMap κ ν :=
  (k, v) :: GoMap.delete m k

/-- The keys of a map. -/
def GoMap.keys {κ ν : Type} (m : GoMap κ ν) : List κ := m.map Prod.fst

/-! ## `audio/audiobridge/local.go` -/

namespace audiobridge

/-- Source `LocalHandler` (local.go 11-15); the two sub-handlers are nullable
pointers. -/
structure LocalHandler (Playback Capture : Type) where
  playback : Option Playback
  capture : Option Capture
  verbose : Bool

/-- Source `newLocalHandler` (local.go 17-19). -/
def newLocalHandler {Playback Capture : Type} (verbose : Bool) :
    LocalHandler Playback Capture :=
  { playback := none, capture := none, verbose := verbose }

/-- Modelled from the spec: the declaration of `Bridge` is outside the listed sources;
these are the fields `StartLocalInput` reads and writes.  `inputType` is an integer
whose unset value is -1 (local.go 22), `localH` is the field `local`, a nullable
pointer to the local handler. -/
structure Bridge (Playback Capture IntWriter ByteWriter : Type) where
  inputType : Int
  localH : Option (LocalHandler Playback Capture)
  intWriter : IntWriter
  byteWriter : ByteWriter

/-- Source `StartLocalInput` (local.go 21-42).  `inputTypeLocal` is the constant of
that name and `NewHandler` is `capture.NewHandler`, both declared outside the listed
sources; `NewHandler` returns its handler and its error, and the handler is stored in
`br.local.capture` whatever the error is. -/
def StartLocalInput {Playback Capture IntWriter ByteWriter AudioDevice : Type}
    (inputTypeLocal : Int)
    (NewHandler : AudioDevice → IntWriter → ByteWriter → Bool → Option Capture × Option String)
    (br : Bridge Playback Capture IntWriter ByteWriter) (audioDevice : AudioDevice)
    (verbose : Bool) : Bridge Playback Capture IntWriter ByteWriter × Option String :=
  if br.inputType ≠ -1 then
    (br, some "an input source has already been defined for this bridge")
  else
    let br := { br with inputType := inputTypeLocal }
    let lh : LocalHandler Playback Capture :=
      match br.localH with
      | none => newLocalHandler verbose
      | some lh => lh
    let br := { br with localH := some lh }
    match lh.capture with
    | none =>
      let r := NewHandler audioDevice br.intWriter br.byteWriter verbose
      let br := { br with localH := some { lh with capture := r.1 } }
      match r.2 with
      | some err => (br, some ("error initializing new capture handler: " ++ err))
      | none => (br, none)
    | some _ => (br, none)

end audiobridge

/-! ## `handlers/rtsp/client.go` -/

namespace rtsp

/-- How a call that may panic ends: with a panic or by returning a value. -/
inductive Ret (α : Type) where
  | panicked
  | returned (a : α)

/-- Modelled from the spec: the declaration of `Request` is outside the listed sources;
a request carries a method, a header map with unique keys and an optional body.  The
header map is a Go map: `none` is the nil map, which can be read but not assigned to. -/
structure Request where
  Method : String
  Headers : Option (GoMap String String)
  Body : List Byte

/-- Read `request.Headers[k]`; a nil map has no entries. -/
def Request.header (request : Request) (k : String) : Option String :=
  match request.Headers with
  | none => none
  | some headers => headers.get k

/-- Source `Client` (client.go 11-14): the connection and the `int64` counter. -/
structure Client (Conn : Type) where
  conn : Conn
  seq : Int

/-- Source `NewClient` (client.go 17-23); `Dial` is `net.Dial`. -/
def NewClient {Conn : Type} (Dial : String → String → Except String Conn)
    (address : String) (port : Int) : Except String (Client Conn) :=
  match Dial "tcp" (address ++ ":" ++ FormatInt port 10) with
  | .error err => .error err
  | .ok conn => .ok { conn := conn, seq := 1 }

/-- Source `Send` (client.go 26-39):
```go
request.Headers["CSeq"] = strconv.FormatInt(c.seq, 10)
request.Headers["User-Agent"] = "Bobcaygeon/1.0"
atomic.AddInt64(&c.seq, 1)
_, err := writeRequest(c.conn, request)
if err != nil { return nil, err }
resp, err := readResponse(c.conn)
if err != nil { return nil, err }
return resp, nil
```
`c` and `request` are pointers to a client and to a request.  The first assignment
panics on a nil header map, before anything is changed.
`writeRequest` and `readResponse` are declared outside the listed sources: they act on
the connection and return an optional error, respectively a response or an error, or
panic.  `atomic.AddInt64(&c.seq, 1)` adds in `int64`.  The request is changed through
its pointer, so it is part of the result. -/
def Send {Conn Response : Type}
    (writeRequest : Conn → Request → Conn × Ret (Option String))
    (readResponse : Conn → Conn × Ret (Except String Response))
    (c : Client Conn) (request : Request) :
    Client Conn × Request × Ret (Except String Response) :=
  match request.Headers with
  | none => (c, request, .panicked)
  | some headers =>
    let headers := headers.set "CSeq" (FormatInt c.seq 10)
    let headers := headers.set "User-Agent" "Bobcaygeon/1.0"
    let request := { request with Headers := some headers }
    let c := { c with seq := wrapInt64 (c.seq + 1) }
    match writeRequest c.conn request with
    | (conn, .panicked) => ({ c with conn := conn }, request, .panicked)
    | (conn, .returned (some err)) => ({ c with conn := conn }, request, .returned (.error err))
    | (conn, .returned none) =>
      match readResponse conn with
      | (conn, .panicked) => ({ c with conn := conn }, request, .panicked)
      | (conn, .returned (.error err)) =>
        ({ c with conn := conn }, request, .returned (.error err))
      | (conn, .returned (.ok resp)) =>
        ({ c with conn := conn }, request, .returned (.ok resp))

/-- Successive calls of `Send` on one client, one per request of the list: the client
after the last call and the requests as the calls left them. -/
def sendAll {Conn Response : Type}
    (writeRequest : Conn → Request → Conn × Ret (Option String))
    (readResponse : Conn → Conn × Ret (Except String Response)) :
    Client Conn → List Request → Client Conn × List Request
  | c, [] => (c, [])
  | c, request :: rest =>
    let r := Send writeRequest readResponse c request
    let rs := sendAll writeRequest readResponse r.1 rest
    (rs.1, r.2.1 :: rs.2)

end rtsp

/-! ## `effect/effects.go` -/

namespace effect

/-- The id search of `New` (effects.go 40-47), `fuel` iterations left from index `i`:
```go
for i := 0; ; i++ {
	id = effect_type + strconv.Itoa(i)
	_, exists := effectInstances[id]
	if !exists { effectInstances[id] = effect; break }
}
```
The result is the index and the id at the `break`, `none` when the fuel ends first.
The index is a natural number: the search stops at an index no larger than the number
of entries of the registry (`New_unique_id`), inside the range of `int`. -/
def findId {E : Type} (effectInstances : GoMap String E) (effect_type : String) :
    Nat → Nat → Option (Nat × String)
  | 0, _ => none
  | fuel + 1, i =>
    let id := effect_type ++ Itoa i
    match effectInstances.get id with
    | some _ => findId effectInstances effect_type fuel (i + 1)
    | none => some (i, id)

/-- What a call of `New` leaves: the registry, the returned effect (`nil` for an
unknown type), the returned error, and the id chosen by the search. -/
structure NewResult (E : Type) where
  effectInstances : GoMap String E
  effect : Option E
  err : Option String
  id : Option String

/-- Source `New` (effects.go 30-55).  `newEnergy` is `new(Energy)`; `Initialize` and
`UpdateConfig` are the methods of the effect, declared outside the listed sources: they
change the effect and return an optional error.  The registry holds a pointer to the
effect, so what is registered under the id is the effect as these calls leave it.
The id search runs with one iteration more than the registry has entries; `none` says
that it did not end within them. -/
def New {E Config : Type} (newEnergy : E)
    (Initialize : E → String → Int → E × Option String)
    (UpdateConfig : E → Config → E × Option String)
    (effectInstances : GoMap String E) (effect_type : String) (pixelCount : Int)
    (config : Config) : Option (NewResult E) :=
  if effect_type = "energy" then
    let effect := newEnergy
    match findId effectInstances effect_type (effectInstances.length + 1) 0 with
    | none => none
    | some (_, id) =>
      match Initialize effect id pixelCount with
      | (effect, some _) =>
        some { effectInstances := effectInstances.set id effect, effect := some effect,
               err := none, id := some id }
      | (effect, none) =>
        match UpdateConfig effect config with
        | (effect, err) =>
          some { effectInstances := effectInstances.set id effect, effect := some effect,
                 err := err, id := some id }
  else
    some { effectInstances := effectInstances, effect := none,
           err := some (effect_type ++ " is not a known effect type"), id := none }

/-- Source `Get` (effects.go 134-140). -/
def Get {E : Type} (effectInstances : GoMap String E) (id : String) : Except String E :=
  match effectInstances.get id with
  | some inst => .ok inst
  | none => .error ("cannot retrieve effect of id: " ++ id)

/-- Source `Destroy` (effects.go 143-145). -/
def Destroy {E : Type} (effectInstances : GoMap String E) (id : String) : GoMap String E :=
  effectInstances.delete id

end effect

/-! ## Go byte slices -/

/-- A Go `[]byte`: `elems` are the `len(p)` bytes of the slice, `spare` the bytes of
its backing array between the length and the capacity. -/
structure GoSlice where
  elems : List Byte
  spare : List Byte

/-- The capacity `cap(p)`. -/
def GoSlice.cap (p : GoSlice) : Nat := p.elems.length + p.spare.length

/-! ## `integrations/airplay2/player.go`: pure helpers -/

namespace airplay2

/-- Source `prepareVolume` (player.go 183-192):
```go
switch {
case vol == 0: return -144
case vol == 1: return 0
default:       return (vol * 30) - 30
}
``` -/
def prepareVolume (vol : ℚ) : ℚ :=
  if vol = 0 then -144
  else if vol = 1 then 0
  else (vol * 30) - 30

/-- Source `twoBytesToInt16` (player.go 109-113):
```go
out |= int16(p[0])
out |= int16(p[1]) << 8
```
`out` is kept as its 16-bit pattern; `int16(p[1]) << 8` keeps the low 16 bits of the
shifted value.  Indexing `p[0]`, `p[1]` beyond the length panics (`none`). -/
def twoBytesToInt16 (p : List Byte) : Option Int :=
  match p[0]?, p[1]? with
  | some b0, some b1 =>
    let out : Nat := 0
    let out := out ||| b0.val
    let out := out ||| ((b1.val <<< 8) % 65536)
    some (int16OfBits out)
  | _, _ => none

/-- Slice expression `p[lo:hi]`: panics (`none`) unless `lo ≤ hi ≤ cap(p)`; the result
has the bytes from `lo` up to `hi` and the rest of the backing array as spare. -/
def sliceFromTo (p : GoSlice) (lo hi : Nat) : Option GoSlice :=
  if lo ≤ hi ∧ hi ≤ p.cap then
    some { elems := ((p.elems ++ p.spare).take hi).drop lo,
           spare := (p.elems ++ p.spare).drop hi }
  else none

/-- Source `twoBytesToInt16Unsafe` (player.go 115-117):
`*(*int16)(unsafe.Pointer(&p[0]))` reads the two bytes stored at `&p[0]` as one
`int16`.  Modelled under a little-endian memory layout: the byte at the lower address
is the low byte.  `&p[0]` panics on an empty slice; a one-byte slice is not read. -/
def twoBytesToInt16Unsafe (p : List Byte) : Option Int :=
  match p[0]?, p[1]? with
  | some b0, some b1 => some (int16OfBits (b0.val + 256 * b1.val))
  | _, _ => none

/-- Loop of `bytesToAudioBuffer` / `bytesToAudioBufferUnsafe` (player.go 92-95, 102-105),
for the pair decoder `dec`, which is handed the two bytes of the slice `p[i : i+2]`:
```go
for i := 0; i < len(p); i += 2 {
	out[offset] = dec(p[i : i+2])
	offset++
}
``` -/
def bytesToAudioBufferLoop (dec : List Byte → Option Int) (p : GoSlice)
    (i offset : Nat) (out : List Int) : Option (List Int) :=
  if i < p.elems.length then
    match sliceFromTo p i (i + 2) with
    | none => none
    | some s =>
      match dec s.elems with
      | none => none
      | some v =>
        if offset < out.length then
          bytesToAudioBufferLoop dec p (i + 2) (offset + 1) (out.set offset v)
        else none
  else some out
termination_by p.elems.length - i
decreasing_by omega

/-- Source `bytesToAudioBuffer` (player.go 99-107): `out = make([]int16, len(p))`, then
the loop with `twoBytesToInt16`. -/
def bytesToAudioBuffer (p : GoSlice) : Option (List Int) :=
  bytesToAudioBufferLoop twoBytesToInt16 p 0 0 (List.replicate p.elems.length 0)

/-- Source `bytesToAudioBufferUnsafe` (player.go 89-97): `out = make([]int16, len(p))`,
then the loop with `twoBytesToInt16Unsafe`. -/
def bytesToAudioBufferUnsafe (p : GoSlice) : Option (List Int) :=
  bytesToAudioBufferLoop twoBytesToInt16Unsafe p 0 0 (List.replicate p.elems.length 0)

/-- The strict little-endian pair decode of a byte sequence: one sample per byte pair
(a trailing single byte has no pair). -/
def decodePairs : List Byte → List Int
  | b0 :: b1 :: rest => int16OfBits (b0.val + 256 * b1.val) :: decodePairs rest
  | _ => []

/-! ## `integrations/airplay2/player.go`: the player -/

/-- Control parameters broadcast to attached clients (`raop.ParamVolume`,
`raop.ParamMuted`, `raop.ParamTrackInfo`, `raop.ParamAlbumArt`). -/
inductive Param where
  | volume (v : ℚ)
  | muted (isMuted : Bool)
  | trackInfo (album artist title : String)
  | albumArt (artwork : List Byte)

/-- Collaborators of the player whose code is outside `player.go`: the codec handle,
`codec.NormalizeAudio`, the byte and int-sample writers and the clients.  Each call acts
on the state `σ` of the outside world.  `Decode`, `NormalizeAudio` and the two `Write`s
may panic: `none`, respectively `false`, next to the state reached before the panic.
`AppendWriter` and `SetParam` register a sink and deliver a parameter. -/
structure Collab (σ Client : Type) where
  Decode : σ → GoSlice → σ × Option GoSlice
  NormalizeAudio : σ → GoSlice → ℚ → σ × Option GoSlice
  byteWrite : σ → GoSlice → σ × Bool
  intWrite : σ → List Int → σ × Bool
  AppendWriter : σ → Option Client → σ
  SetParam : σ → Option Client → Param → σ

/-- Source `audioPlayer` (player.go 15-35).  `apClients [8]*Client` is a total map from
the eight slots to nullable pointers; `numClients` counts registered clients: it starts
at 0 and is only incremented, so it is a natural number.  The
writers, the wait group and the quit channel live in the outside world. -/
structure audioPlayer (Client : Type) where
  hasClients : Bool
  hasDecodedOutputs : Bool
  sessionActive : Bool
  muted : Bool
  doBroadcast : Bool
  numClients : Nat
  apClients : Fin 8 → Option Client
  artwork : List Byte
  album : String
  artist : String
  title : String
  volume : ℚ

/-- Source `newPlayer` (player.go 37-48): empty client array, volume 1, the remaining
fields at their zero values. -/
def newPlayer (Client : Type) : audioPlayer Client where
  hasClients := false
  hasDecodedOutputs := false
  sessionActive := false
  muted := false
  doBroadcast := false
  numClients := 0
  apClients := fun _ => none
  artwork := []
  album := ""
  artist := ""
  title := ""
  volume := 1

/-- Source `AddClient` (player.go 119-124):
```go
p.hasClients = true
p.apClients[p.numClients] = client
p.byteWriter.AppendWriter(p.apClients[p.numClients])
p.numClients++
```
Indexing the 8-element array at `numClients ≥ 8` panics: the call then ends with
`hasClients` already set and nothing else done.  The flag of the result is `true` when
the call returned and `false` when it panicked. -/
def AddClient {σ Client : Type} (env : Collab σ Client) (p : audioPlayer Client) (w : σ)
    (client : Option Client) : audioPlayer Client × σ × Bool :=
  let p := { p with hasClients := true }
  if h : p.numClients < 8 then
    let p := { p with apClients := Function.update p.apClients ⟨p.numClients, h⟩ client }
    let w := env.AppendWriter w (p.apClients ⟨p.numClients, h⟩)
    ({ p with numClients := p.numClients + 1 }, w, true)
  else (p, w, false)

/-- Loop of `broadcastParam` (player.go 200-204), `k` iterations left from index `i`:
`p.apClients[i].SetParam(par)`; an index beyond the array panics. -/
def broadcastParamLoop {σ Client : Type} (env : Collab σ Client) (p : audioPlayer Client)
    (par : Param) : Nat → Nat → σ → σ × Bool
  | 0, _, w => (w, true)
  | k + 1, i, w =>
    if h : i < 8 then
      broadcastParamLoop env p par k (i + 1) (env.SetParam w (p.apClients ⟨i, h⟩) par)
    else (w, false)

/-- Source `broadcastParam` (player.go 200-204): `for i := 0; i < p.numClients; i++`. -/
def broadcastParam {σ Client : Type} (env : Collab σ Client) (p : audioPlayer Client)
    (w : σ) (par : Param) : σ × Bool :=
  broadcastParamLoop env p par p.numClients 0 w

/-- Source `SetVolume` (player.go 126-131). -/
def SetVolume {σ Client : Type} (env : Collab σ Client) (p : audioPlayer Client) (w : σ)
    (volume : ℚ) : audioPlayer Client × σ × Bool :=
  let p := { p with volume := volume }
  if p.hasClients then
    let r := broadcastParam env p w (Param.volume (prepareVolume volume))
    (p, r.1, r.2)
  else (p, w, true)

/-- Source `SetMute` (player.go 133-141): `p.muted = isMuted`, then the broadcast when
clients are attached. -/
def SetMute {σ Client : Type} (env : Collab σ Client) (p : audioPlayer Client) (w : σ)
    (isMuted : Bool) : audioPlayer Client × σ × Bool :=
  let p := { p with muted := isMuted }
  if p.hasClients then
    let r := broadcastParam env p w (Param.muted isMuted)
    (p, r.1, r.2)
  else (p, w, true)

/-- Source `SetTrack` (player.go 147-158). -/
def SetTrack {σ Client : Type} (env : Collab σ Client) (p : audioPlayer Client) (w : σ)
    (album artist title : String) : audioPlayer Client × σ × Bool :=
  let p := { p with album := album, artist := artist, title := title }
  if p.hasClients then
    let r := broadcastParam env p w (Param.trackInfo album artist title)
    (p, r.1, r.2)
  else (p, w, true)

/-- Source `SetAlbumArt` (player.go 160-165). -/
def SetAlbumArt {σ Client : Type} (env : Collab σ Client) (p : audioPlayer Client) (w : σ)
    (artwork : List Byte) : audioPlayer Client × σ × Bool :=
  let p := { p with artwork := artwork }
  if p.hasClients then
    let r := broadcastParam env p w (Param.albumArt artwork)
    (p, r.1, r.2)
  else (p, w, true)

/-- A call of one of the player's state-changing methods from the controlling side. -/
inductive Call (Client : Type) where
  | AddClient (client : Option Client)
  | SetVolume (volume : ℚ)
  | SetMute (isMuted : Bool)
  | SetTrack (album artist title : String)
  | SetAlbumArt (artwork : List Byte)

/-- Run one method call; the flag is `false` when the call panicked. -/
def Call.run {σ Client : Type} (env : Collab σ Client) (p : audioPlayer Client) (w : σ) :
    Call Client → audioPlayer Client × σ × Bool
  | .AddClient client => airplay2.AddClient env p w client
  | .SetVolume volume => airplay2.SetVolume env p w volume
  | .SetMute isMuted => airplay2.SetMute env p w isMuted
  | .SetTrack album artist title => airplay2.SetTrack env p w album artist title
  | .SetAlbumArt artwork => airplay2.SetAlbumArt env p w artwork

/-- What one `select` of the processing loop receives (player.go 59-84): a frame from
`session.DataChan`, the closing of that channel (`ok == false`), or a value from
`p.quit`. -/
inductive Received where
  | frame (recvBuf : GoSlice)
  | closed
  | quit

/-- Body of the per-frame function literal (player.go 74-79):
```go
recvBuf = dc.Decode(recvBuf)
codec.NormalizeAudio(recvBuf, p.volume)
p.byteWriter.Write(recvBuf)
p.intWriter.Write(bytesToAudioBufferUnsafe(recvBuf))
```
The flag is `false` when one of the calls panicked; the calls after it do not run. -/
def frameBody {σ Client : Type} (env : Collab σ Client) (p : audioPlayer Client) (w : σ)
    (recvBuf : GoSlice) : σ × Bool :=
  match env.Decode w recvBuf with
  | (w, none) => (w, false)
  | (w, some recvBuf) =>
    match env.NormalizeAudio w recvBuf p.volume with
    | (w, none) => (w, false)
    | (w, some recvBuf) =>
      match env.byteWrite w recvBuf with
      | (w, false) => (w, false)
      | (w, true) =>
        match bytesToAudioBufferUnsafe recvBuf with
        | none => (w, false)
        | some buf => env.intWrite w buf

/-- The per-frame function literal with its deferred `recover()` (player.go 67-80): a
panic of the body ends the literal normally; what the body did before it stays. -/
def frameRecovered {σ Client : Type} (env : Collab σ Client) (p : audioPlayer Client)
    (w : σ) (recvBuf : GoSlice) : σ :=
  (frameBody env p w recvBuf).1

/-- State of a player with its outside world and its processing task: `taskRunning`
says that the goroutine started by `Play` is in its loop, `crashed` that a panic left a
goroutine uncaught. -/
structure Sys (σ Client : Type) where
  p : audioPlayer Client
  w : σ
  taskRunning : Bool
  crashed : Bool

/-- One iteration of the loop of `Play` (player.go 58-85) on what `select` received.
A closed channel and a quit value return from the goroutine, whose deferred function
sets `sessionActive = false`; a frame is skipped when `p.muted`, and otherwise handed
to the recovering function literal. -/
def loopIteration {σ Client : Type} (env : Collab σ Client) (s : Sys σ Client) :
    Received → Sys σ Client
  | .frame recvBuf =>
    if s.p.muted then s
    else { s with w := frameRecovered env s.p s.w recvBuf }
  | .closed => { s with p := { s.p with sessionActive := false }, taskRunning := false }
  | .quit => { s with p := { s.p with sessionActive := false }, taskRunning := false }

/-- Source `Play` (player.go 50-87) up to the first `select`: `p.sessionActive = true`
and the processing goroutine is started. -/
def Play {σ Client : Type} (s : Sys σ Client) : Sys σ Client :=
  { s with p := { s.p with sessionActive := true }, taskRunning := true }

/-- What happens next in a system: the processing task receives something, or the
controlling side calls a method between two iterations of the task. -/
inductive Event (Client : Type) where
  | received (r : Received)
  | call (c : Call Client)

/-- One step of the system.  Nothing is received when no task runs; a method call
that panics is not caught by the player and is recorded in `crashed`. -/
def Sys.step {σ Client : Type} (env : Collab σ Client) (s : Sys σ Client) :
    Event Client → Sys σ Client
  | .received r => if s.taskRunning then loopIteration env s r else s
  | .call c =>
    let r := c.run env s.p s.w
    { s with p := r.1, w := r.2.1, crashed := s.crashed || !r.2.2 }

/-- Run a sequence of events. -/
def Sys.run {σ Client : Type} (env : Collab σ Client) (s : Sys σ Client) :
    List (Event Client) → Sys σ Client
  | [] => s
  | e :: es => Sys.run env (s.step env e) es

/-- States of a player reachable from `newPlayer` by method calls (returning or
panicking), by `Play` and by iterations of the processing loop. -/
inductive Reachable {σ Client : Type} (env : Collab σ Client) : audioPlayer Client → Prop
  | init : Reachable env (newPlayer Client)
  | call (p : audioPlayer Client) (w : σ) (c : Call Client) :
      Reachable env p → Reachable env (c.run env p w).1
  | play (s : Sys σ Client) : Reachable env s.p → Reachable env (Play s).p
  | iteration (s : Sys σ Client) (r : Received) :
      Reachable env s.p → Reachable env (loopIteration env s r).p

end airplay2

/-! ## Concrete collaborators for evaluation -/

namespace airplay2

/-- A recording world: every collaborator call that is carried out is appended to a
list of call names (with the length of its argument); a frame starting with byte 0 makes
`Decode` panic before it does anything. -/
def recordingCollab : Collab (List (String × Nat)) Nat where
  Decode := fun w b =>
    if b.elems.head? = some 0 then (w, none) else (w ++ [("Decode", b.elems.length)], some b)
  NormalizeAudio := fun w b _ => (w ++ [("NormalizeAudio", b.elems.length)], some b)
  byteWrite := fun w b => (w ++ [("byteWrite", b.elems.length)], true)
  intWrite := fun w b => (w ++ [("intWrite", b.length)], true)
  AppendWriter := fun w _ => w ++ [("AppendWriter", 0)]
  SetParam := fun w _ _ => w ++ [("SetParam", 0)]

/-- A system on the recording world: a new player after `Play`. -/
def recordingSys : Sys (List (String × Nat)) Nat :=
  Play { p := newPlayer Nat, w := [], taskRunning := false, crashed := false }

end airplay2

namespace audiobridge

/-- A bridge as created: input type unset (-1), no local handler. -/
def unsetBridge : Bridge Unit Nat Unit Unit :=
  { inputType := -1, localH := none, intWriter := (), byteWriter := () }

/-- A `capture.NewHandler` that always fails and returns no handler. -/
def failingNewHandler : Unit → Unit → Unit → Bool → Option Nat × Option String :=
  fun _ _ _ _ => (none, some "no device")

end audiobridge

namespace rtsp

/-- A connection on which every write succeeds. -/
def okWrite : Unit → Request → Unit × Ret (Option String) := fun c _ => (c, .returned none)

/-- A connection that answers every request with an empty response. -/
def okRead : Unit → Unit × Ret (Except String Unit) := fun c => (c, .returned (.ok ()))

/-- A connection on which every write fails. -/
def failWrite : Unit → Request → Unit × Ret (Option String) :=
  fun c _ => (c, .returned (some "broken pipe"))

/-- An `OPTIONS` request with an allocated, empty header map. -/
def optionsRequest : Request := { Method := "OPTIONS", Headers := some [], Body := [] }

/-- An `OPTIONS` request whose header map is nil. -/
def nilHeadersRequest : Request := { Method := "OPTIONS", Headers := none, Body := [] }

end rtsp

/-- Value of a decimal digit string read from the left, starting from `acc`. -/
def decVal (acc : Nat) (cs : List Char) : Nat :=
  cs.foldl (fun a c => 10 * a + (c.toNat - 48)) acc

namespace effect

/-- A registry holding effects (numbered payloads) under "energy0" and "energy1". -/
def twoEffects : GoMap String Nat := [("energy1", 11), ("energy0", 10)]

/-- An `Initialize` that succeeds and stores the pixel count. -/
def okInitialize : Nat → String → Int → Nat × Option String :=
  fun _ _ pixelCount => (pixelCount.toNat, none)

/-- An `UpdateConfig` that succeeds and adds the configuration value. -/
def okUpdateConfig : Nat → Nat → Nat × Option String := fun e config => (e + config, none)

end effect

/-! ## Lemmas -/

theorem lor_shift_eq_add (b0 b1 : Byte) :
    (0 ||| b0.val) ||| ((b1.val <<< 8) % 65536) = b0.val + 256 * b1.val := by
  have h0 := b0.isLt
  have h1 := b1.isLt
  have hs : b1.val <<< 8 = 2 ^ 8 * b1.val := by
    rw [Nat.shiftLeft_eq, Nat.mul_comm]
  have hlt : 2 ^ 8 * b1.val < 65536 := by omega
  rw [Nat.zero_or, hs, Nat.mod_eq_of_lt hlt, Nat.lor_comm,
    ← Nat.mul_add_lt_is_or (by simp) b1.val]
  norm_num
  omega

theorem twoBytesToInt16_pair (b0 b1 : Byte) :
    airplay2.twoBytesToInt16 [b0, b1] = some (int16OfBits (b0.val + 256 * b1.val)) := by
  simp only [airplay2.twoBytesToInt16, List.getElem?_cons_zero, List.getElem?_cons_succ]
  rw [lor_shift_eq_add]

theorem int16OfBits_bitsOfInt16 (s : Int) (hlo : -32768 ≤ s) (hhi : s < 32768) :
    int16OfBits (bitsOfInt16 s) = s := by
  unfold int16OfBits bitsOfInt16
  have hnn : 0 ≤ s % 65536 := Int.emod_nonneg _ (by decide)
  have hlt : s % 65536 < 65536 := Int.emod_lt_of_pos _ (by decide)
  have hcast : (((s % 65536).toNat % 65536 : Nat) : Int) = s % 65536 := by
    rw [Nat.mod_eq_of_lt (by omega)]
    exact Int.toNat_of_nonneg hnn
  by_cases hs : 0 ≤ s
  · have : s % 65536 = s := Int.emod_eq_of_lt hs (by omega)
    rw [if_pos (by omega), hcast, this]
  · have : s % 65536 = s + 65536 := by omega
    rw [if_neg (by omega), hcast, this]
    ring

theorem low_high_byte (s : Int) :
    (lowByte s).val + 256 * (highByte s).val = bitsOfInt16 s := by
  have hlt : bitsOfInt16 s < 65536 := by
    unfold bitsOfInt16
    have hnn : 0 ≤ s % 65536 := Int.emod_nonneg _ (by decide)
    have hlt : s % 65536 < 65536 := Int.emod_lt_of_pos _ (by decide)
    omega
  simp only [lowByte, highByte]
  omega

/-! ## Theorems -/

theorem StartLocalInput_already_set {Playback Capture IntWriter ByteWriter AudioDevice : Type}
    (inputTypeLocal : Int)
    (NewHandler : AudioDevice → IntWriter → ByteWriter → Bool → Option Capture × Option String)
    (br : audiobridge.Bridge Playback Capture IntWriter ByteWriter) (audioDevice : AudioDevice)
    (verbose : Bool) (h : br.inputType ≠ -1) :
    audiobridge.StartLocalInput inputTypeLocal NewHandler br audioDevice verbose =
      (br, some "an input source has already been defined for this bridge") := by
  simp only [audiobridge.StartLocalInput, if_pos h]

theorem StartLocalInput_inputType {Playback Capture IntWriter ByteWriter AudioDevice : Type}
    (inputTypeLocal : Int)
    (NewHandler : AudioDevice → IntWriter → ByteWriter → Bool → Option Capture × Option String)
    (br : audiobridge.Bridge Playback Capture IntWriter ByteWriter) (audioDevice : AudioDevice)
    (verbose : Bool) (h : br.inputType = -1) :
    (audiobridge.StartLocalInput inputTypeLocal NewHandler br audioDevice verbose).1.inputType
      = inputTypeLocal := by
  have h' : ¬ br.inputType ≠ -1 := by simp [h]
  simp only [audiobridge.StartLocalInput, if_neg h']
  split
  · split <;> rfl
  · rfl

/-- C1: on a bridge whose input type is set (not -1) `StartLocalInput` returns an error
and leaves the bridge as it was; so the second of two successive calls fails and changes
nothing, whether the first call returned nil or an error; a first call that fails in
`capture.NewHandler` leaves `inputType` at `inputTypeLocal`.  The constant
`inputTypeLocal` is a value of the input-type enumeration, different from the unset
value -1. -/
theorem StartLocalInput_once {Playback Capture IntWriter ByteWriter AudioDevice : Type}
    (inputTypeLocal : Int) (hLocal : inputTypeLocal ≠ -1)
    (NewHandler₁ NewHandler₂ :
      AudioDevice → IntWriter → ByteWriter → Bool → Option Capture × Option String) :
    (∀ (br : audiobridge.Bridge Playback Capture IntWriter ByteWriter) (d : AudioDevice)
        (v : Bool), br.inputType ≠ -1 →
        (audiobridge.StartLocalInput inputTypeLocal NewHandler₁ br d v).2.isSome = true ∧
        (audiobridge.StartLocalInput inputTypeLocal NewHandler₁ br d v).1 = br) ∧
    (∀ (br : audiobridge.Bridge Playback Capture IntWriter ByteWriter) (d₁ d₂ : AudioDevice)
        (v₁ v₂ : Bool),
        (audiobridge.StartLocalInput inputTypeLocal NewHandler₂
          (audiobridge.StartLocalInput inputTypeLocal NewHandler₁ br d₁ v₁).1 d₂ v₂).2.isSome
          = true ∧
        (audiobridge.StartLocalInput inputTypeLocal NewHandler₂
          (audiobridge.StartLocalInput inputTypeLocal NewHandler₁ br d₁ v₁).1 d₂ v₂).1
          = (audiobridge.StartLocalInput inputTypeLocal NewHandler₁ br d₁ v₁).1) ∧
    (∀ (br : audiobridge.Bridge Playback Capture IntWriter ByteWriter) (d : AudioDevice)
        (v : Bool), br.inputType = -1 →
        (∀ lh, br.localH = some lh → lh.capture = none) →
        (NewHandler₁ d br.intWriter br.byteWriter v).2.isSome = true →
        (audiobridge.StartLocalInput inputTypeLocal NewHandler₁ br d v).2.isSome = true ∧
        (audiobridge.StartLocalInput inputTypeLocal NewHandler₁ br d v).1.inputType
          = inputTypeLocal) := by
  refine ⟨?_, ?_, ?_⟩
  · intro br d v h
    rw [StartLocalInput_already_set inputTypeLocal NewHandler₁ br d v h]
    exact ⟨rfl, rfl⟩
  · intro br d₁ d₂ v₁ v₂
    have hset : (audiobridge.StartLocalInput inputTypeLocal NewHandler₁ br d₁ v₁).1.inputType
        ≠ -1 := by
      by_cases h : br.inputType = -1
      · rw [StartLocalInput_inputType inputTypeLocal NewHandler₁ br d₁ v₁ h]
        exact hLocal
      · rw [StartLocalInput_already_set inputTypeLocal NewHandler₁ br d₁ v₁ h]
        exact h
    rw [StartLocalInput_already_set inputTypeLocal NewHandler₂ _ d₂ v₂ hset]
    exact ⟨rfl, rfl⟩
  · intro br d v h hcap herr
    refine ⟨?_, StartLocalInput_inputType inputTypeLocal NewHandler₁ br d v h⟩
    have h' : ¬ br.inputType ≠ -1 := by simp [h]
    simp only [audiobridge.StartLocalInput, if_neg h']
    cases hl : br.localH with
    | none =>
      simp only [audiobridge.newLocalHandler]
      cases he : (NewHandler₁ d br.intWriter br.byteWriter v).2 with
      | none => rw [he] at herr; simp at herr
      | some e => simp
    | some lh =>
      simp only [hcap lh hl]
      cases he : (NewHandler₁ d br.intWriter br.byteWriter v).2 with
      | none => rw [he] at herr; simp at herr
      | some e => simp

/-- Witness for C1: on an unset bridge with a failing capture device and
`inputTypeLocal = 0`, the first call fails leaving `inputType = 0`, and the second call
fails as well and changes nothing. -/
theorem StartLocalInput_once_witness :
    ((audiobridge.StartLocalInput 0 audiobridge.failingNewHandler
        audiobridge.unsetBridge () false).2.isSome = true ∧
      (audiobridge.StartLocalInput 0 audiobridge.failingNewHandler
        audiobridge.unsetBridge () false).1.inputType = 0) ∧
    ((audiobridge.StartLocalInput 0 audiobridge.failingNewHandler
        (audiobridge.StartLocalInput 0 audiobridge.failingNewHandler
          audiobridge.unsetBridge () false).1 () true).2.isSome = true ∧
      (audiobridge.StartLocalInput 0 audiobridge.failingNewHandler
        (audiobridge.StartLocalInput 0 audiobridge.failingNewHandler
          audiobridge.unsetBridge () false).1 () true).1
        = (audiobridge.StartLocalInput 0 audiobridge.failingNewHandler
          audiobridge.unsetBridge () false).1) :=
  have h := @StartLocalInput_once Unit Nat Unit Unit Unit 0 (by decide)
    audiobridge.failingNewHandler audiobridge.failingNewHandler
  ⟨h.2.2 audiobridge.unsetBridge () false rfl
      (fun lh hl => by simp [audiobridge.unsetBridge] at hl) rfl,
    h.2.1 audiobridge.unsetBridge () () false true⟩

theorem GoMap.get_delete {κ ν : Type} [DecidableEq κ] (m : GoMap κ ν) (k k' : κ) :
    GoMap.get (GoMap.delete m k) k' = if k' = k then none else GoMap.get m k' := by
  induction m with
  | nil => simp [GoMap.delete, GoMap.get]
  | cons kv m ih =>
    obtain ⟨a, v⟩ := kv
    unfold GoMap.delete at ih ⊢
    by_cases ha : a = k
    · subst ha
      simp only [List.filter, ne_eq, not_true_eq_false, decide_False, GoMap.get]
      rw [ih]
      by_cases hk : k' = a
      · simp [hk]
      · have : ¬ a = k' := fun h => hk h.symm
        simp [hk, this]
    · simp only [List.filter, ne_eq, ha, not_false_eq_true, decide_True, GoMap.get]
      rw [ih]
      by_cases hk : k' = k
      · subst hk
        simp [ha]
      · simp [hk]

theorem GoMap.get_set_same {κ ν : Type} [DecidableEq κ] (m : GoMap κ ν) (k : κ) (v : ν) :
    GoMap.get (GoMap.set m k v) k = some v := by
  simp [GoMap.set, GoMap.get]

theorem GoMap.get_set_other {κ ν : Type} [DecidableEq κ] (m : GoMap κ ν) (k k' : κ) (v : ν)
    (h : k' ≠ k) : GoMap.get (GoMap.set m k v) k' = GoMap.get m k' := by
  have h' : ¬ k = k' := fun e => h e.symm
  simp only [GoMap.set, GoMap.get, if_neg h']
  rw [GoMap.get_delete, if_neg h]

theorem wrapInt64_of_range (n : Int) (hlo : -2 ^ 63 ≤ n) (hhi : n < 2 ^ 63) :
    wrapInt64 n = n := by
  unfold wrapInt64
  rw [Int.emod_eq_of_lt (by omega) (by omega)]
  ring

theorem Send_nil_headers {Conn Response : Type}
    (writeRequest : Conn → rtsp.Request → Conn × rtsp.Ret (Option String))
    (readResponse : Conn → Conn × rtsp.Ret (Except String Response))
    (c : rtsp.Client Conn) (request : rtsp.Request) (h : request.Headers = none) :
    rtsp.Send writeRequest readResponse c request = (c, request, .panicked) := by
  simp only [rtsp.Send, h]

theorem Send_cseq {Conn Response : Type}
    (writeRequest : Conn → rtsp.Request → Conn × rtsp.Ret (Option String))
    (readResponse : Conn → Conn × rtsp.Ret (Except String Response))
    (c : rtsp.Client Conn) (request : rtsp.Request) (h : request.Headers ≠ none) :
    (rtsp.Send writeRequest readResponse c request).2.1.header "CSeq"
      = some (FormatInt c.seq 10) := by
  have hk : ("CSeq" : String) ≠ "User-Agent" := by decide
  cases hh : request.Headers with
  | none => exact absurd hh h
  | some headers =>
    have hget : GoMap.get (GoMap.set (GoMap.set headers "CSeq" (FormatInt c.seq 10))
        "User-Agent" "Bobcaygeon/1.0") "CSeq" = some (FormatInt c.seq 10) := by
      rw [GoMap.get_set_other _ _ _ _ hk, GoMap.get_set_same]
    simp only [rtsp.Send, hh]
    split
    · exact hget
    · exact hget
    · split <;> exact hget

theorem Send_seq {Conn Response : Type}
    (writeRequest : Conn → rtsp.Request → Conn × rtsp.Ret (Option String))
    (readResponse : Conn → Conn × rtsp.Ret (Except String Response))
    (c : rtsp.Client Conn) (request : rtsp.Request) (h : request.Headers ≠ none) :
    (rtsp.Send writeRequest readResponse c request).1.seq = wrapInt64 (c.seq + 1) := by
  cases hh : request.Headers with
  | none => exact absurd hh h
  | some headers =>
    simp only [rtsp.Send, hh]
    split
    · rfl
    · rfl
    · split <;> rfl

theorem sendAll_cseq {Conn Response : Type}
    (writeRequest : Conn → rtsp.Request → Conn × rtsp.Ret (Option String))
    (readResponse : Conn → Conn × rtsp.Ret (Except String Response)) :
    ∀ (requests : List rtsp.Request) (c : rtsp.Client Conn),
      (∀ r ∈ requests, r.Headers ≠ none) →
      -2 ^ 63 ≤ c.seq → c.seq < 2 ^ 63 → c.seq + requests.length ≤ 2 ^ 63 →
      (rtsp.sendAll writeRequest readResponse c requests).2.length = requests.length ∧
      (∀ k : Nat, k < requests.length →
        ∃ r, (rtsp.sendAll writeRequest readResponse c requests).2[k]? = some r ∧
          r.header "CSeq" = some (FormatInt (c.seq + k) 10)) ∧
      (rtsp.sendAll writeRequest readResponse c requests).1.seq
        = wrapInt64 (c.seq + requests.length) := by
  intro requests
  induction requests with
  | nil =>
    intro c _ hlo hlt _
    refine ⟨rfl, ?_, ?_⟩
    · intro k hk
      simp at hk
    · simp only [rtsp.sendAll, List.length_nil, Nat.cast_zero, add_zero]
      exact (wrapInt64_of_range c.seq hlo hlt).symm
  | cons request rest ih =>
    intro c hall hlo hlt hhi
    simp only [List.length_cons, Nat.cast_add, Nat.cast_one] at hhi
    have hreq : request.Headers ≠ none := hall request (List.mem_cons_self _ _)
    have hrest : ∀ r ∈ rest, r.Headers ≠ none :=
      fun r hr => hall r (List.mem_cons_of_mem _ hr)
    have hseq := Send_seq writeRequest readResponse c request hreq
    have hw : wrapInt64 (c.seq + 1) = c.seq + 1 ∨ rest = [] := by
      cases rest with
      | nil => exact Or.inr rfl
      | cons a t =>
        left
        simp only [List.length_cons, Nat.cast_add, Nat.cast_one] at hhi
        exact wrapInt64_of_range _ (by omega) (by omega)
    rcases hw with hw | hnil
    · rw [hw] at hseq
      have ih' := ih (rtsp.Send writeRequest readResponse c request).1 hrest
        (by rw [hseq]; omega) (by rw [hseq, ← hw]; unfold wrapInt64; omega)
        (by rw [hseq]; omega)
      refine ⟨?_, ?_, ?_⟩
      · simp only [rtsp.sendAll, List.length_cons, ih'.1]
      · intro k hk
        cases k with
        | zero =>
          refine ⟨(rtsp.Send writeRequest readResponse c request).2.1, ?_, ?_⟩
          · simp [rtsp.sendAll]
          · simpa using Send_cseq writeRequest readResponse c request hreq
        | succ k =>
          simp only [List.length_cons] at hk
          obtain ⟨r, hr, hc⟩ := ih'.2.1 k (by omega)
          refine ⟨r, ?_, ?_⟩
          · simpa [rtsp.sendAll] using hr
          · rw [hc, hseq]
            congr 2
            push_cast
            ring
      · simp only [rtsp.sendAll, List.length_cons]
        rw [ih'.2.2, hseq]
        congr 1
        push_cast
        ring
    · subst hnil
      refine ⟨rfl, ?_, ?_⟩
      · intro k hk
        simp only [List.length_cons, List.length_nil] at hk
        have hk0 : k = 0 := by omega
        subst hk0
        refine ⟨(rtsp.Send writeRequest readResponse c request).2.1, ?_, ?_⟩
        · simp [rtsp.sendAll]
        · simpa using Send_cseq writeRequest readResponse c request hreq
      · simp only [rtsp.sendAll, List.length_cons, List.length_nil]
        rw [hseq]
        rfl

/-- C2 as stated fails in two places.  At the top of the `int64` range a `Send` on a
client whose counter is 2^63 - 1 sends that value and leaves the counter at -2^63, not
at 2^63.  On a request whose header map is nil the assignment of `CSeq` panics before
the increment: no `CSeq` is set and the counter stays at n. -/
theorem Send_counter_wraps :
    (rtsp.Send rtsp.okWrite rtsp.okRead { conn := (), seq := 2 ^ 63 - 1 }
        rtsp.optionsRequest).1.seq = -2 ^ 63 ∧
    ((rtsp.Send rtsp.okWrite rtsp.okRead { conn := (), seq := 1 }
        rtsp.nilHeadersRequest).1.seq = 1 ∧
      (rtsp.Send rtsp.okWrite rtsp.okRead { conn := (), seq := 1 }
        rtsp.nilHeadersRequest).2.1.header "CSeq" = none) ∧
    ¬ (∀ (c : rtsp.Client Unit) (request : rtsp.Request), -2 ^ 63 ≤ c.seq → c.seq < 2 ^ 63 →
        request.Headers ≠ none →
        (rtsp.Send rtsp.okWrite rtsp.okRead c request).1.seq = c.seq + 1) ∧
    ¬ (∀ (c : rtsp.Client Unit) (request : rtsp.Request), -2 ^ 63 ≤ c.seq →
        c.seq < 2 ^ 63 - 1 →
        (rtsp.Send rtsp.okWrite rtsp.okRead c request).1.seq = c.seq + 1) := by
  have h : (rtsp.Send rtsp.okWrite rtsp.okRead { conn := (), seq := 2 ^ 63 - 1 }
      rtsp.optionsRequest).1.seq = -2 ^ 63 := by
    rw [Send_seq _ _ _ _ (by simp [rtsp.optionsRequest])]
    decide
  have hnil := Send_nil_headers rtsp.okWrite rtsp.okRead { conn := (), seq := 1 }
    rtsp.nilHeadersRequest rfl
  refine ⟨h, ⟨by rw [hnil], by rw [hnil]; rfl⟩, ?_, ?_⟩
  · intro hall
    have h2 := hall { conn := (), seq := 2 ^ 63 - 1 } rtsp.optionsRequest
      (by decide) (by decide) (by simp [rtsp.optionsRequest])
    rw [h] at h2
    revert h2
    decide
  · intro hall
    have h2 := hall { conn := (), seq := 1 } rtsp.nilHeadersRequest (by decide) (by decide)
    rw [hnil] at h2
    revert h2
    decide

/-- C2 amended: a new client has counter 1; every `Send` of a request whose header map
is allocated sets `CSeq` to the base-10 string of the counter n before the call and
leaves the counter at n+1 wrapped into `int64`, which is exactly n+1 for every n below
2^63 - 1 (and -2^63 at n = 2^63 - 1), whether `writeRequest` and `readResponse` return
nil, return an error or panic; a `Send` of a request whose header map is nil panics
with the client and the request as they were; hence the k-th `Send` on a new client
whose requests all have allocated header maps carries `CSeq` = k for every k up to
2^63 - 1. -/
theorem Send_sequence_counter {Conn Response : Type}
    (writeRequest : Conn → rtsp.Request → Conn × rtsp.Ret (Option String))
    (readResponse : Conn → Conn × rtsp.Ret (Except String Response)) :
    (∀ (Dial : String → String → Except String Conn) (address : String) (port : Int)
        (c : rtsp.Client Conn), rtsp.NewClient Dial address port = .ok c → c.seq = 1) ∧
    (∀ (c : rtsp.Client Conn) (request : rtsp.Request), request.Headers ≠ none →
        (rtsp.Send writeRequest readResponse c request).2.1.header "CSeq"
          = some (FormatInt c.seq 10) ∧
        FormatInt c.seq 10 = toString c.seq ∧
        (rtsp.Send writeRequest readResponse c request).1.seq = wrapInt64 (c.seq + 1) ∧
        (-2 ^ 63 ≤ c.seq → c.seq < 2 ^ 63 - 1 →
          (rtsp.Send writeRequest readResponse c request).1.seq = c.seq + 1) ∧
        (c.seq = 2 ^ 63 - 1 →
          (rtsp.Send writeRequest readResponse c request).1.seq = -2 ^ 63)) ∧
    (∀ (c : rtsp.Client Conn) (request : rtsp.Request), request.Headers = none →
        rtsp.Send writeRequest readResponse c request = (c, request, .panicked)) ∧
    (∀ (c : rtsp.Client Conn) (requests : List rtsp.Request),
        c.seq = 1 → (requests.length : Int) ≤ 2 ^ 63 - 1 →
        (∀ r ∈ requests, r.Headers ≠ none) →
        (∀ k : Nat, k < requests.length →
          ∃ r, (rtsp.sendAll writeRequest readResponse c requests).2[k]? = some r ∧
            r.header "CSeq" = some (FormatInt ((k : Int) + 1) 10)) ∧
        (rtsp.sendAll writeRequest readResponse c requests).1.seq
          = wrapInt64 ((requests.length : Int) + 1)) := by
  refine ⟨?_, ?_, fun c request h => Send_nil_headers _ _ c request h, ?_⟩
  · intro Dial address port c h
    simp only [rtsp.NewClient] at h
    split at h
    · cases h
    · cases h
      rfl
  · intro c request hreq
    refine ⟨Send_cseq _ _ c request hreq, ?_, Send_seq _ _ c request hreq, ?_, ?_⟩
    · cases c.seq <;> rfl
    · intro hlo hhi
      rw [Send_seq _ _ _ _ hreq, wrapInt64_of_range _ (by omega) (by omega)]
    · intro h
      rw [Send_seq _ _ _ _ hreq, h]
      decide
  · intro c requests hc hlen hall
    have h := sendAll_cseq writeRequest readResponse requests c hall
      (by rw [hc]; decide) (by rw [hc]; decide) (by rw [hc]; omega)
    refine ⟨?_, ?_⟩
    · intro k hk
      obtain ⟨r, hr, hcs⟩ := h.2.1 k hk
      refine ⟨r, hr, ?_⟩
      rw [hcs, hc, add_comm]
    · rw [h.2.2, hc, add_comm]

/-- Witness for the amended C2: three requests sent over a connection whose writes fail;
the third carries `CSeq` "3" and the counter ends at 4. -/
theorem Send_sequence_counter_witness :
    (∃ r, (rtsp.sendAll rtsp.failWrite rtsp.okRead { conn := (), seq := 1 }
        [rtsp.optionsRequest, rtsp.optionsRequest, rtsp.optionsRequest]).2[2]? = some r ∧
      r.header "CSeq" = some (FormatInt ((2 : Nat) + 1) 10)) ∧
    (rtsp.sendAll rtsp.failWrite rtsp.okRead { conn := (), seq := 1 }
        [rtsp.optionsRequest, rtsp.optionsRequest, rtsp.optionsRequest]).1.seq
      = wrapInt64 (((3 : Nat) : Int) + 1) :=
  have h := (Send_sequence_counter rtsp.failWrite rtsp.okRead).2.2.2
    { conn := (), seq := 1 }
    [rtsp.optionsRequest, rtsp.optionsRequest, rtsp.optionsRequest] rfl (by decide)
    (by simp [rtsp.optionsRequest])
  ⟨h.1 2 (by decide), h.2⟩

theorem digitChar_val (k : Nat) (h : k < 10) : (Nat.digitChar k).toNat - 48 = k := by
  interval_cases k <;> rfl

theorem decVal_toDigitsCore : ∀ (fuel n : Nat) (ds : List Char), n < fuel →
    decVal 0 (Nat.toDigitsCore 10 fuel n ds) = decVal n ds := by
  intro fuel
  induction fuel with
  | zero =>
    intro n ds h
    omega
  | succ f ih =>
    intro n ds h
    simp only [Nat.toDigitsCore]
    split
    · have hn : n < 10 := by
        by_contra hc
        have : 1 ≤ n / 10 := (Nat.one_le_div_iff (by decide)).2 (by omega)
        omega
      simp only [decVal, List.foldl_cons, Nat.mul_zero, Nat.zero_add]
      rw [digitChar_val _ (Nat.mod_lt _ (by decide)), Nat.mod_eq_of_lt hn]
    · rw [ih (n / 10) _ (by omega)]
      simp only [decVal, List.foldl_cons]
      rw [digitChar_val _ (Nat.mod_lt _ (by decide))]
      congr 1
      omega

theorem toDigits_ten_injective (i j : Nat) (h : Nat.toDigits 10 i = Nat.toDigits 10 j) :
    i = j := by
  have hi := decVal_toDigitsCore (i + 1) i [] (by omega)
  have hj := decVal_toDigitsCore (j + 1) j [] (by omega)
  unfold Nat.toDigits at h
  rw [h, hj] at hi
  simpa [decVal] using hi.symm

theorem Itoa_nat_injective (i j : Nat) (h : Itoa (i : Int) = Itoa (j : Int)) : i = j := by
  have h' : (Nat.toDigits 10 i).asString = (Nat.toDigits 10 j).asString := h
  have := congrArg String.data h'
  exact toDigits_ten_injective i j (by simpa using this)

theorem id_injective (t : String) (i j : Nat)
    (h : t ++ Itoa (i : Int) = t ++ Itoa (j : Int)) : i = j := by
  have h' := congrArg String.data h
  simp only [String.data_append, List.append_cancel_left_eq] at h'
  exact Itoa_nat_injective i j (String.ext h')

theorem GoMap.mem_keys_of_get {κ ν : Type} [DecidableEq κ] (m : GoMap κ ν) (k : κ)
    (h : GoMap.get m k ≠ none) : k ∈ GoMap.keys m := by
  induction m with
  | nil => simp [GoMap.get] at h
  | cons kv m ih =>
    obtain ⟨a, v⟩ := kv
    simp only [GoMap.get] at h
    by_cases ha : a = k
    · simp [GoMap.keys, ha]
    · rw [if_neg ha] at h
      have := ih h
      simp only [GoMap.keys, List.map_cons, List.mem_cons] at this ⊢
      exact Or.inr this

theorem exists_free_id {E : Type} (m : GoMap String E) (t : String) :
    ∃ j : Nat, j ≤ m.length ∧ GoMap.get m (t ++ Itoa (j : Int)) = none := by
  by_contra hcon
  push_neg at hcon
  have hsub : Finset.image (fun j : Nat => t ++ Itoa (j : Int)) (Finset.range (m.length + 1))
      ⊆ (GoMap.keys m).toFinset := by
    intro k hk
    obtain ⟨j, hj, rfl⟩ := Finset.mem_image.1 hk
    rw [List.mem_toFinset]
    exact GoMap.mem_keys_of_get m _ (hcon j (by simpa [Nat.lt_succ_iff] using hj))
  have hinj : Function.Injective (fun j : Nat => t ++ Itoa (j : Int)) :=
    fun i j h => id_injective t i j h
  have hcard := Finset.card_le_card hsub
  rw [Finset.card_image_of_injective _ hinj, Finset.card_range] at hcard
  have hle : (GoMap.keys m).toFinset.card ≤ m.length := by
    have := List.toFinset_card_le (GoMap.keys m)
    simpa [GoMap.keys] using this
  omega

theorem findId_least {E : Type} (m : GoMap String E) (t : String) :
    ∀ (fuel i j : Nat), i ≤ j → j < i + fuel → GoMap.get m (t ++ Itoa (j : Int)) = none →
      ∃ n : Nat, effect.findId m t fuel i = some (n, t ++ Itoa (n : Int)) ∧ i ≤ n ∧ n ≤ j ∧
        GoMap.get m (t ++ Itoa (n : Int)) = none ∧
        ∀ l : Nat, i ≤ l → l < n → GoMap.get m (t ++ Itoa (l : Int)) ≠ none := by
  intro fuel
  induction fuel with
  | zero =>
    intro i j hij hj _
    omega
  | succ f ih =>
    intro i j hij hj hfree
    cases hget : GoMap.get m (t ++ Itoa (i : Int)) with
    | none =>
      refine ⟨i, ?_, le_refl i, hij, hget, ?_⟩
      · simp only [effect.findId, hget]
      · intro l h1 h2
        omega
    | some e =>
      have hne : i ≠ j := by
        intro h
        rw [h, hfree] at hget
        cases hget
      obtain ⟨n, hn, h1, h2, h3, h4⟩ := ih (i + 1) j (by omega) (by omega) hfree
      refine ⟨n, ?_, by omega, h2, h3, ?_⟩
      · simp only [effect.findId, hget]
        rw [← hn]
      · intro l hl1 hl2
        by_cases hli : l = i
        · rw [hli, hget]
          simp
        · exact h4 l (by omega) hl2

/-- C10: for every registry and the known effect type "energy", the id search of `New`
ends and `New` registers the new effect under the type followed by the decimal of i, the
least natural number whose id was free (i is at most the number of entries); every other
id, so every id registered before, still maps to the effect it mapped to, and the new
id was not registered before, so no id is shared.  For an unknown type `New` returns an
error and the registry as it was. -/
theorem New_unique_id {E Config : Type} (newEnergy : E)
    (Initialize : E → String → Int → E × Option String)
    (UpdateConfig : E → Config → E × Option String)
    (effectInstances : GoMap String E) (pixelCount : Int) (config : Config) :
    (∀ effect_type : String, effect_type = "energy" →
      ∃ (r : effect.NewResult E) (i : Nat),
        effect.New newEnergy Initialize UpdateConfig effectInstances effect_type pixelCount
          config = some r ∧
        r.id = some (effect_type ++ Itoa (i : Int)) ∧
        i ≤ effectInstances.length ∧
        GoMap.get effectInstances (effect_type ++ Itoa (i : Int)) = none ∧
        (∀ l : Nat, l < i → GoMap.get effectInstances (effect_type ++ Itoa (l : Int)) ≠ none) ∧
        (∃ e : E, r.effect = some e ∧
          GoMap.get r.effectInstances (effect_type ++ Itoa (i : Int)) = some e) ∧
        (∀ k : String, k ≠ effect_type ++ Itoa (i : Int) →
          GoMap.get r.effectInstances k = GoMap.get effectInstances k) ∧
        (∀ (k : String) (e : E), GoMap.get effectInstances k = some e →
          GoMap.get r.effectInstances k = some e)) ∧
    (∀ effect_type : String, effect_type ≠ "energy" →
      ∃ r : effect.NewResult E,
        effect.New newEnergy Initialize UpdateConfig effectInstances effect_type pixelCount
          config = some r ∧
        r.err ≠ none ∧ r.effect = none ∧ r.effectInstances = effectInstances) := by
  constructor
  · intro effect_type ht
    obtain ⟨j, hj, hfree⟩ := exists_free_id effectInstances effect_type
    obtain ⟨n, hn, _, hnj, hnfree, hleast⟩ :=
      findId_least effectInstances effect_type (effectInstances.length + 1) 0 j
        (Nat.zero_le j) (by omega) hfree
    have hold : ∀ (m' : GoMap String E) , (∀ k : String, k ≠ effect_type ++ Itoa (n : Int) →
        GoMap.get m' k = GoMap.get effectInstances k) →
        ∀ (k : String) (e : E), GoMap.get effectInstances k = some e →
          GoMap.get m' k = some e := by
      intro m' hm k e hk
      have hne : k ≠ effect_type ++ Itoa (n : Int) := by
        intro h
        rw [h, hnfree] at hk
        cases hk
      rw [hm k hne, hk]
    have hother : ∀ (e : E) (k : String), k ≠ effect_type ++ Itoa (n : Int) →
        GoMap.get (GoMap.set effectInstances (effect_type ++ Itoa (n : Int)) e) k
          = GoMap.get effectInstances k :=
      fun e k hk => GoMap.get_set_other effectInstances _ k e hk
    simp only [effect.New, if_pos ht, hn]
    cases hi : Initialize newEnergy (effect_type ++ Itoa (n : Int)) pixelCount with
    | mk e ierr =>
      cases ierr with
      | some msg =>
        refine ⟨_, n, rfl, rfl, by omega, hnfree, fun l hl => hleast l (Nat.zero_le l) hl,
          ⟨e, rfl, GoMap.get_set_same _ _ _⟩, hother e, hold _ (hother e)⟩
      | none =>
        refine ⟨_, n, rfl, rfl, by omega, hnfree, fun l hl => hleast l (Nat.zero_le l) hl,
          ⟨(UpdateConfig e config).1, rfl, GoMap.get_set_same _ _ _⟩,
          hother (UpdateConfig e config).1, hold _ (hother (UpdateConfig e config).1)⟩
  · intro effect_type ht
    refine ⟨{ effectInstances := effectInstances, effect := none,
              err := some (effect_type ++ " is not a known effect type"), id := none },
      ?_, ?_, rfl, rfl⟩
    · simp only [effect.New, if_neg ht]
    · simp

/-- Witness for C10: with "energy0" and "energy1" registered, `New "energy"` chooses
"energy2". -/
theorem New_unique_id_witness :
    ∃ (r : effect.NewResult Nat) (i : Nat),
      effect.New 0 effect.okInitialize effect.okUpdateConfig effect.twoEffects "energy" 60 5
        = some r ∧
      r.id = some ("energy" ++ Itoa (i : Int)) ∧
      i ≤ effect.twoEffects.length ∧
      GoMap.get effect.twoEffects ("energy" ++ Itoa (i : Int)) = none :=
  have h := (New_unique_id 0 effect.okInitialize effect.okUpdateConfig effect.twoEffects
    60 5).1 "energy" rfl
  h.elim fun r hr => hr.elim fun i hi => ⟨r, i, hi.1, hi.2.1, hi.2.2.1, hi.2.2.2.1⟩

/-- C6: `prepareVolume` is monotonic on [0,1]; `prepareVolume 0 = -144` is the least
value, `prepareVolume 1 = 0` the greatest, so every result lies in -144 .. 0. -/
theorem prepareVolume_monotone_range :
    (∀ v w : ℚ, 0 ≤ v → v ≤ w → w ≤ 1 →
        airplay2.prepareVolume v ≤ airplay2.prepareVolume w) ∧
    airplay2.prepareVolume 0 = -144 ∧
    airplay2.prepareVolume 1 = 0 ∧
    (∀ v : ℚ, 0 ≤ v → v ≤ 1 →
        airplay2.prepareVolume 0 ≤ airplay2.prepareVolume v ∧
        airplay2.prepareVolume v ≤ airplay2.prepareVolume 1 ∧
        -144 ≤ airplay2.prepareVolume v ∧ airplay2.prepareVolume v ≤ 0) := by
  have range : ∀ v : ℚ, 0 ≤ v → v ≤ 1 →
      -144 ≤ airplay2.prepareVolume v ∧ airplay2.prepareVolume v ≤ 0 := by
    intro v h0 h1
    unfold airplay2.prepareVolume
    split_ifs <;> constructor <;> linarith
  have e0 : airplay2.prepareVolume 0 = -144 := by simp [airplay2.prepareVolume]
  have e1 : airplay2.prepareVolume 1 = 0 := by simp [airplay2.prepareVolume]
  refine ⟨?_, e0, e1, ?_⟩
  · intro v w h0 hvw h1
    by_cases hv : v = 0
    · subst hv
      rw [e0]
      exact (range w (by linarith) h1).1
    · by_cases hw : w = 1
      · subst hw
        rw [e1]
        exact (range v h0 hvw).2
      · have hw0 : w ≠ 0 := by
          intro h
          apply hv
          linarith
        have hv1 : v ≠ 1 := by
          intro h
          apply hw
          linarith
        simp only [airplay2.prepareVolume, if_neg hv, if_neg hw, if_neg hw0, if_neg hv1]
        linarith
  · intro v h0 h1
    rw [e0, e1]
    exact ⟨(range v h0 h1).1, (range v h0 h1).2, range v h0 h1⟩

/-- Witness for C6 at v = 1/4, w = 3/4. -/
theorem prepareVolume_monotone_range_witness :
    airplay2.prepareVolume (1 / 4) ≤ airplay2.prepareVolume (3 / 4) :=
  prepareVolume_monotone_range.1 (1 / 4) (3 / 4) (by norm_num) (by norm_num) (by norm_num)

/-- C7 as stated fails: at v = 1/2 the code gives -15, the interpolation between
`prepareVolume 0 = -144` and `prepareVolume 1 = 0` gives -72. -/
theorem prepareVolume_not_linear_between_endpoints :
    airplay2.prepareVolume (1 / 2) = -15 ∧
    (1 - 1 / 2) * airplay2.prepareVolume 0 + 1 / 2 * airplay2.prepareVolume 1 = -72 ∧
    ¬ (∀ v : ℚ, 0 ≤ v → v ≤ 1 → airplay2.prepareVolume v =
        (1 - v) * airplay2.prepareVolume 0 + v * airplay2.prepareVolume 1) := by
  have h : airplay2.prepareVolume (1 / 2) = -15 := by
    unfold airplay2.prepareVolume
    norm_num
  have e0 : airplay2.prepareVolume 0 = -144 := by simp [airplay2.prepareVolume]
  have e1 : airplay2.prepareVolume 1 = 0 := by simp [airplay2.prepareVolume]
  refine ⟨h, ?_, ?_⟩
  · rw [e0, e1]
    norm_num
  · intro hall
    have := hall (1 / 2) (by norm_num) (by norm_num)
    rw [h, e0, e1] at this
    norm_num at this

/-- C7 amended: on 0 < v ≤ 1 `prepareVolume` is the line from -30 (the limit at 0) to
`prepareVolume 1 = 0`, that is `30 * v - 30`; `prepareVolume 0 = -144` lies off that
line. -/
theorem prepareVolume_linear_above_zero :
    (∀ v : ℚ, 0 < v → v ≤ 1 →
        airplay2.prepareVolume v = (1 - v) * (-30) + v * airplay2.prepareVolume 1 ∧
        airplay2.prepareVolume v = 30 * v - 30) ∧
    airplay2.prepareVolume 0 = -144 ∧ airplay2.prepareVolume 1 = 0 := by
  have e1 : airplay2.prepareVolume 1 = 0 := by simp [airplay2.prepareVolume]
  refine ⟨?_, by simp [airplay2.prepareVolume], e1⟩
  intro v h0 h1
  rw [e1]
  have hv : v ≠ 0 := ne_of_gt h0
  by_cases h : v = 1
  · subst h
    rw [e1]
    norm_num
  · simp only [airplay2.prepareVolume, if_neg hv, if_neg h]
    constructor <;> ring

/-- Witness for the amended C7 at v = 1/2. -/
theorem prepareVolume_linear_above_zero_witness :
    airplay2.prepareVolume (1 / 2) = (1 - 1 / 2) * (-30) + 1 / 2 * airplay2.prepareVolume 1 ∧
    airplay2.prepareVolume (1 / 2) = 30 * (1 / 2) - 30 :=
  prepareVolume_linear_above_zero.1 (1 / 2) (by norm_num) (by norm_num)

/-- C8: `twoBytesToInt16` is a left inverse of little-endian encoding: for every int16
sample s, decoding [low byte, high byte] returns s; for all bytes b0, b1 the result is
the two's-complement 16-bit value of b0 + 256*b1; [0x01,0x02] decodes to 0x0201 and
[0xFF,0xFF] to -1. -/
theorem twoBytesToInt16_left_inverse :
    (∀ s : Int, -32768 ≤ s → s < 32768 →
        airplay2.twoBytesToInt16 [lowByte s, highByte s] = some s) ∧
    (∀ b0 b1 : Byte,
        airplay2.twoBytesToInt16 [b0, b1] = some (int16OfBits (b0.val + 256 * b1.val))) ∧
    airplay2.twoBytesToInt16 [0x01, 0x02] = some 0x0201 ∧
    airplay2.twoBytesToInt16 [0xFF, 0xFF] = some (-1) := by
  refine ⟨?_, twoBytesToInt16_pair, by decide, by decide⟩
  intro s hlo hhi
  rw [twoBytesToInt16_pair, low_high_byte, int16OfBits_bitsOfInt16 s hlo hhi]

/-- Witness for C8 at the sample -2. -/
theorem twoBytesToInt16_left_inverse_witness :
    airplay2.twoBytesToInt16 [lowByte (-2), highByte (-2)] = some (-2) :=
  twoBytesToInt16_left_inverse.1 (-2) (by decide) (by decide)

theorem sliceFromTo_pair (p : GoSlice) (i : Nat) (b0 b1 : Byte) (rest : List Byte)
    (hd : (p.elems ++ p.spare).drop i = b0 :: b1 :: rest) :
    ∃ sp, airplay2.sliceFromTo p i (i + 2) = some { elems := [b0, b1], spare := sp } := by
  have hlen : ((p.elems ++ p.spare).drop i).length = rest.length + 2 := by
    rw [hd]
    rfl
  rw [List.length_drop, List.length_append] at hlen
  refine ⟨(p.elems ++ p.spare).drop (i + 2), ?_⟩
  unfold airplay2.sliceFromTo GoSlice.cap
  rw [if_pos ⟨by omega, by omega⟩, List.drop_take, hd]
  simp

theorem bytesToAudioBufferLoop_spec (dec : List Byte → Option Int)
    (hdec : ∀ b0 b1 : Byte, dec [b0, b1] = some (int16OfBits (b0.val + 256 * b1.val)))
    (p : GoSlice) :
    ∀ (n i offset : Nat) (out : List Int),
      p.elems.length ≤ i + 2 * n → (1 ≤ n → i + 2 * n < p.elems.length + 2) →
      i + 2 * n ≤ p.cap → offset + n ≤ out.length →
      airplay2.bytesToAudioBufferLoop dec p i offset out
        = some (out.take offset
            ++ airplay2.decodePairs (((p.elems ++ p.spare).drop i).take (2 * n))
            ++ out.drop (offset + n)) := by
  intro n
  induction n with
  | zero =>
    intro i offset out h1 _ _ _
    rw [airplay2.bytesToAudioBufferLoop, if_neg (by omega)]
    simp [airplay2.decodePairs]
  | succ n ih =>
    intro i offset out h1 h2 h3 ho
    have h2' := h2 (by omega)
    have hcap : p.cap = (p.elems ++ p.spare).length := by
      simp [GoSlice.cap]
    have hlen : ((p.elems ++ p.spare).drop i).length ≥ 2 := by
      rw [List.length_drop]
      omega
    obtain ⟨b0, b1, rest, hd⟩ :
        ∃ b0 b1 rest, (p.elems ++ p.spare).drop i = b0 :: b1 :: rest := by
      match h : (p.elems ++ p.spare).drop i with
      | [] => rw [h] at hlen; simp at hlen
      | [_] => rw [h] at hlen; simp at hlen
      | b0 :: b1 :: rest => exact ⟨b0, b1, rest, rfl⟩
    have hrest : (p.elems ++ p.spare).drop (i + 2) = rest := by
      rw [← List.drop_drop, hd]
      rfl
    obtain ⟨sp, hslice⟩ := sliceFromTo_pair p i b0 b1 rest hd
    rw [airplay2.bytesToAudioBufferLoop, if_pos (by omega), hslice]
    simp only [hdec, if_pos (show offset < out.length by omega)]
    rw [ih (i + 2) (offset + 1) _ (by omega) (by omega) (by omega)
      (by rw [List.length_set]; omega)]
    have hlt : offset < out.length := by omega
    have htake : ∀ v : Int, (out.set offset v).take (offset + 1) = out.take offset ++ [v] := by
      intro v
      rw [List.set_eq_take_append_cons_drop, if_pos hlt]
      have hl : (List.take offset out).length = offset := by
        rw [List.length_take]
        omega
      rw [List.take_append_eq_append_take, hl, List.take_of_length_le (by omega)]
      simp
    have h2n : 2 * (n + 1) = 2 * n + 1 + 1 := by omega
    rw [hrest, hd, h2n, List.take_succ_cons, List.take_succ_cons, airplay2.decodePairs, htake,
      List.drop_set_of_lt _ _ (by omega)]
    simp [Nat.add_assoc, Nat.add_comm 1 n]

theorem bytesToAudioBufferLoop_odd_panics (dec : List Byte → Option Int)
    (hdec : ∀ b0 b1 : Byte, dec [b0, b1] = some (int16OfBits (b0.val + 256 * b1.val)))
    (p : GoSlice) (hspare : p.spare = []) :
    ∀ (n i offset : Nat) (out : List Int),
      p.elems.length = i + 2 * n + 1 → offset + n ≤ out.length →
      airplay2.bytesToAudioBufferLoop dec p i offset out = none := by
  intro n
  induction n with
  | zero =>
    intro i offset out h1 _
    have hs : airplay2.sliceFromTo p i (i + 2) = none := by
      unfold airplay2.sliceFromTo GoSlice.cap
      rw [if_neg]
      rw [hspare]
      simp only [List.length_nil]
      omega
    rw [airplay2.bytesToAudioBufferLoop, if_pos (by omega), hs]
  | succ n ih =>
    intro i offset out h1 ho
    have hlen : ((p.elems ++ p.spare).drop i).length ≥ 2 := by
      rw [List.length_drop, List.length_append]
      omega
    obtain ⟨b0, b1, rest, hd⟩ :
        ∃ b0 b1 rest, (p.elems ++ p.spare).drop i = b0 :: b1 :: rest := by
      match h : (p.elems ++ p.spare).drop i with
      | [] => rw [h] at hlen; simp at hlen
      | [_] => rw [h] at hlen; simp at hlen
      | b0 :: b1 :: rest => exact ⟨b0, b1, rest, rfl⟩
    obtain ⟨sp, hslice⟩ := sliceFromTo_pair p i b0 b1 rest hd
    rw [airplay2.bytesToAudioBufferLoop, if_pos (by omega), hslice]
    simp only [hdec, if_pos (show offset < out.length by omega)]
    exact ih (i + 2) (offset + 1) _ (by omega) (by rw [List.length_set]; omega)

theorem twoBytesToInt16Unsafe_pair (b0 b1 : Byte) :
    airplay2.twoBytesToInt16Unsafe [b0, b1] = some (int16OfBits (b0.val + 256 * b1.val)) := by
  simp [airplay2.twoBytesToInt16Unsafe]

theorem decodePairs_length : ∀ (n : Nat) (p : List Byte), p.length = 2 * n →
    (airplay2.decodePairs p).length = n := by
  intro n
  induction n with
  | zero =>
    intro p hp
    have : p = [] := List.length_eq_zero.1 (by omega)
    subst this
    rfl
  | succ n ih =>
    intro p hp
    match p, hp with
    | b0 :: b1 :: rest, hp =>
      simp only [airplay2.decodePairs, List.length_cons]
      rw [ih rest (by simp only [List.length_cons] at hp; omega)]

/-- What the two conversions return on a byte slice of even length, whatever its
capacity: the pair decode followed by as many zero samples again, `len(p)` samples in
all; both variants agree. -/
theorem bytesToAudioBuffer_even (p : GoSlice) (n : Nat) (hp : p.elems.length = 2 * n) :
    airplay2.bytesToAudioBuffer p
      = some (airplay2.decodePairs p.elems ++ List.replicate n 0) ∧
    airplay2.bytesToAudioBufferUnsafe p = airplay2.bytesToAudioBuffer p ∧
    (airplay2.decodePairs p.elems).length = n := by
  have key : ∀ dec : List Byte → Option Int,
      (∀ b0 b1 : Byte, dec [b0, b1] = some (int16OfBits (b0.val + 256 * b1.val))) →
      airplay2.bytesToAudioBufferLoop dec p 0 0 (List.replicate p.elems.length 0)
        = some (airplay2.decodePairs p.elems ++ List.replicate n 0) := by
    intro dec hdec
    rw [bytesToAudioBufferLoop_spec dec hdec p n 0 0 _ (by omega) (by omega)
      (by unfold GoSlice.cap; omega) (by simp; omega)]
    have h1 : p.elems.length - n = n := by omega
    have h2 : List.take (2 * n) (p.elems ++ p.spare) = p.elems := by
      rw [← hp]
      exact List.take_left' rfl
    simp [h1, h2]
  refine ⟨key _ twoBytesToInt16_pair, ?_, decodePairs_length n p.elems hp⟩
  unfold airplay2.bytesToAudioBufferUnsafe airplay2.bytesToAudioBuffer
  rw [key _ twoBytesToInt16_pair, key _ twoBytesToInt16Unsafe_pair]

/-- What the two conversions return on a byte slice of odd length with spare capacity:
the last byte is paired with the first byte behind the slice. -/
theorem bytesToAudioBuffer_odd_spare (p : GoSlice) (n : Nat) (b : Byte) (t : List Byte)
    (hp : p.elems.length = 2 * n + 1) (hs : p.spare = b :: t) :
    airplay2.bytesToAudioBuffer p
      = some (airplay2.decodePairs (p.elems ++ [b]) ++ List.replicate n 0) ∧
    airplay2.bytesToAudioBufferUnsafe p = airplay2.bytesToAudioBuffer p := by
  have key : ∀ dec : List Byte → Option Int,
      (∀ b0 b1 : Byte, dec [b0, b1] = some (int16OfBits (b0.val + 256 * b1.val))) →
      airplay2.bytesToAudioBufferLoop dec p 0 0 (List.replicate p.elems.length 0)
        = some (airplay2.decodePairs (p.elems ++ [b]) ++ List.replicate n 0) := by
    intro dec hdec
    rw [bytesToAudioBufferLoop_spec dec hdec p (n + 1) 0 0 _ (by omega) (by omega)
      (by unfold GoSlice.cap; rw [hs]; simp only [List.length_cons]; omega)
      (by simp; omega)]
    have h1 : p.elems.length - (n + 1) = n := by omega
    have h2 : List.take (2 * (n + 1)) (p.elems ++ p.spare) = p.elems ++ [b] := by
      have e : p.elems ++ p.spare = (p.elems ++ [b]) ++ t := by
        rw [hs]
        simp
      rw [e]
      exact List.take_left' (by simp; omega)
    simp [h1, h2]
  refine ⟨key _ twoBytesToInt16_pair, ?_⟩
  unfold airplay2.bytesToAudioBufferUnsafe airplay2.bytesToAudioBuffer
  rw [key _ twoBytesToInt16_pair, key _ twoBytesToInt16Unsafe_pair]

/-- On a byte slice of odd length without spare capacity both conversions panic in the
slice expression of the last iteration. -/
theorem bytesToAudioBuffer_odd_panics (p : GoSlice) (n : Nat)
    (hp : p.elems.length = 2 * n + 1) (hs : p.spare = []) :
    airplay2.bytesToAudioBuffer p = none ∧ airplay2.bytesToAudioBufferUnsafe p = none := by
  constructor
  · exact bytesToAudioBufferLoop_odd_panics _ twoBytesToInt16_pair p hs n 0 0 _
      (by omega) (by simp; omega)
  · exact bytesToAudioBufferLoop_odd_panics _ twoBytesToInt16Unsafe_pair p hs n 0 0 _
      (by omega) (by simp; omega)

/-- C9 (code at the failing input): for the two bytes [0x01, 0x02], whatever the
capacity of the slice, both conversions return two samples, 0x0201 followed by a zero
sample, where the strict pair decode has the one sample 0x0201. -/
theorem bytesToAudioBuffer_pads_zero_samples :
    (∀ spare : List Byte,
      airplay2.bytesToAudioBuffer { elems := [0x01, 0x02], spare := spare }
        = some [0x0201, 0]) ∧
    (∀ spare : List Byte,
      airplay2.bytesToAudioBufferUnsafe { elems := [0x01, 0x02], spare := spare }
        = some [0x0201, 0]) ∧
    airplay2.decodePairs [0x01, 0x02] = [0x0201] ∧
    (∀ spare : List Byte,
      airplay2.bytesToAudioBuffer { elems := [0x01, 0x02], spare := spare }
        ≠ some (airplay2.decodePairs [0x01, 0x02])) := by
  have hd : airplay2.decodePairs [0x01, 0x02] = [0x0201] := by decide
  have hs : ∀ spare : List Byte,
      airplay2.bytesToAudioBuffer { elems := [0x01, 0x02], spare := spare }
        = some [0x0201, 0] := by
    intro spare
    have h := bytesToAudioBuffer_even { elems := [0x01, 0x02], spare := spare } 1 rfl
    rw [h.1, hd]
    rfl
  refine ⟨hs, ?_, hd, ?_⟩
  · intro spare
    have h := bytesToAudioBuffer_even { elems := [0x01, 0x02], spare := spare } 1 rfl
    rw [h.2.1, hs]
  · intro spare
    rw [hs, hd]
    decide


/-- C3: with fewer than 8 registered clients `AddClient` returns, stores the client in
slot `numClients`, registers it with the byte writer, leaves every other slot as it was
and adds 1 to `numClients`; with `numClients = 8` it fails (the array index panics) and
changes no slot and not `numClients`; hence `numClients ≤ 8` in every state reachable
from a new player. -/
theorem AddClient_bounded_registry {σ Client : Type} (env : airplay2.Collab σ Client) :
    (∀ (p : airplay2.audioPlayer Client) (w : σ) (c : Option Client)
        (h : p.numClients < 8),
        (airplay2.AddClient env p w c).2.2 = true ∧
        (airplay2.AddClient env p w c).1.apClients ⟨p.numClients, h⟩ = c ∧
        (∀ j : Fin 8, j.val ≠ p.numClients →
          (airplay2.AddClient env p w c).1.apClients j = p.apClients j) ∧
        (airplay2.AddClient env p w c).1.numClients = p.numClients + 1 ∧
        (airplay2.AddClient env p w c).2.1 = env.AppendWriter w c) ∧
    (∀ (p : airplay2.audioPlayer Client) (w : σ) (c : Option Client),
        p.numClients = 8 →
        (airplay2.AddClient env p w c).2.2 = false ∧
        (airplay2.AddClient env p w c).1.apClients = p.apClients ∧
        (airplay2.AddClient env p w c).1.numClients = p.numClients ∧
        (airplay2.AddClient env p w c).2.1 = w) ∧
    (∀ p : airplay2.audioPlayer Client, airplay2.Reachable env p → p.numClients ≤ 8) := by
  refine ⟨?_, ?_, ?_⟩
  · intro p w c h
    have hj : ∀ j : Fin 8, j.val ≠ p.numClients → j ≠ ⟨p.numClients, h⟩ := by
      intro j hne heq
      exact hne (congrArg Fin.val heq)
    simp only [airplay2.AddClient, dif_pos h, Function.update_same, true_and]
    refine ⟨?_, trivial⟩
    intro j hne
    exact Function.update_noteq (hj j hne) _ _
  · intro p w c h
    have h8 : ¬ p.numClients < 8 := by omega
    simp [airplay2.AddClient, dif_neg h8]
  · intro p hp
    induction hp with
    | init => simp [airplay2.newPlayer]
    | call p w c _ ih =>
      cases c with
      | AddClient client =>
        by_cases h : p.numClients < 8
        · simp only [airplay2.Call.run, airplay2.AddClient, dif_pos h]
          omega
        · simp only [airplay2.Call.run, airplay2.AddClient, dif_neg h]
          exact ih
      | SetVolume volume =>
        simp only [airplay2.Call.run, airplay2.SetVolume]
        split <;> exact ih
      | SetMute isMuted =>
        simp only [airplay2.Call.run, airplay2.SetMute]
        split <;> exact ih
      | SetTrack album artist title =>
        simp only [airplay2.Call.run, airplay2.SetTrack]
        split <;> exact ih
      | SetAlbumArt artwork =>
        simp only [airplay2.Call.run, airplay2.SetAlbumArt]
        split <;> exact ih
    | play s _ ih => exact ih
    | iteration s r _ ih =>
      cases r with
      | frame recvBuf =>
        simp only [airplay2.loopIteration]
        split <;> exact ih
      | closed => exact ih
      | quit => exact ih

/-- Witness for C3: a first client added to a new player on the recording world. -/
theorem AddClient_bounded_registry_witness :
    (airplay2.AddClient airplay2.recordingCollab (airplay2.newPlayer Nat) [] (some 7)).2.2
        = true ∧
    (airplay2.AddClient airplay2.recordingCollab (airplay2.newPlayer Nat) []
        (some 7)).1.numClients = 0 + 1 :=
  have h := (AddClient_bounded_registry airplay2.recordingCollab).1
    (airplay2.newPlayer Nat) [] (some 7) (by decide)
  ⟨h.1, h.2.2.2.1⟩

theorem step_frame {σ Client : Type} (env : airplay2.Collab σ Client)
    (s : airplay2.Sys σ Client) (recvBuf : GoSlice) (hrun : s.taskRunning = true) :
    s.step env (.received (.frame recvBuf)) =
      if s.p.muted then s
      else { s with w := (airplay2.frameBody env s.p s.w recvBuf).1 } := by
  simp only [airplay2.Sys.step, hrun, if_true, airplay2.loopIteration,
    airplay2.frameRecovered]

theorem step_frame_unmuted {σ Client : Type} (env : airplay2.Collab σ Client)
    (s : airplay2.Sys σ Client) (recvBuf : GoSlice) (hrun : s.taskRunning = true)
    (hmuted : s.p.muted = false) (r : σ × Bool)
    (hbody : airplay2.frameBody env s.p s.w recvBuf = r) :
    s.step env (.received (.frame recvBuf)) = { s with w := r.1 } := by
  rw [step_frame env s recvBuf hrun, hbody]
  simp [hmuted]

theorem frameBody_Decode_panics {σ Client : Type} (env : airplay2.Collab σ Client)
    (p : airplay2.audioPlayer Client) (w w₁ : σ) (recvBuf : GoSlice)
    (hd : env.Decode w recvBuf = (w₁, none)) :
    airplay2.frameBody env p w recvBuf = (w₁, false) := by
  simp only [airplay2.frameBody, hd]

theorem frameBody_NormalizeAudio_panics {σ Client : Type} (env : airplay2.Collab σ Client)
    (p : airplay2.audioPlayer Client) (w w₁ w₂ : σ) (recvBuf decoded : GoSlice)
    (hd : env.Decode w recvBuf = (w₁, some decoded))
    (hn : env.NormalizeAudio w₁ decoded p.volume = (w₂, none)) :
    airplay2.frameBody env p w recvBuf = (w₂, false) := by
  simp only [airplay2.frameBody, hd, hn]

theorem frameBody_byteWrite_panics {σ Client : Type} (env : airplay2.Collab σ Client)
    (p : airplay2.audioPlayer Client) (w w₁ w₂ w₃ : σ) (recvBuf decoded normalized : GoSlice)
    (hd : env.Decode w recvBuf = (w₁, some decoded))
    (hn : env.NormalizeAudio w₁ decoded p.volume = (w₂, some normalized))
    (hb : env.byteWrite w₂ normalized = (w₃, false)) :
    airplay2.frameBody env p w recvBuf = (w₃, false) := by
  simp only [airplay2.frameBody, hd, hn, hb]

theorem frameBody_conversion_panics {σ Client : Type} (env : airplay2.Collab σ Client)
    (p : airplay2.audioPlayer Client) (w w₁ w₂ w₃ : σ) (recvBuf decoded normalized : GoSlice)
    (n : Nat)
    (hd : env.Decode w recvBuf = (w₁, some decoded))
    (hn : env.NormalizeAudio w₁ decoded p.volume = (w₂, some normalized))
    (hb : env.byteWrite w₂ normalized = (w₃, true))
    (hlen : normalized.elems.length = 2 * n + 1) (hspare : normalized.spare = []) :
    airplay2.frameBody env p w recvBuf = (w₃, false) := by
  simp only [airplay2.frameBody, hd, hn, hb,
    (bytesToAudioBuffer_odd_panics normalized n hlen hspare).2]

theorem frameBody_even {σ Client : Type} (env : airplay2.Collab σ Client)
    (p : airplay2.audioPlayer Client) (w w₁ w₂ w₃ : σ) (recvBuf decoded normalized : GoSlice)
    (n : Nat)
    (hd : env.Decode w recvBuf = (w₁, some decoded))
    (hn : env.NormalizeAudio w₁ decoded p.volume = (w₂, some normalized))
    (hb : env.byteWrite w₂ normalized = (w₃, true))
    (hlen : normalized.elems.length = 2 * n) :
    airplay2.frameBody env p w recvBuf
      = env.intWrite w₃ (airplay2.decodePairs normalized.elems ++ List.replicate n 0) := by
  have h := bytesToAudioBuffer_even normalized n hlen
  simp only [airplay2.frameBody, hd, hn, hb, h.2.1, h.1]

theorem frameBody_odd_spare {σ Client : Type} (env : airplay2.Collab σ Client)
    (p : airplay2.audioPlayer Client) (w w₁ w₂ w₃ : σ) (recvBuf decoded normalized : GoSlice)
    (n : Nat) (b : Byte) (t : List Byte)
    (hd : env.Decode w recvBuf = (w₁, some decoded))
    (hn : env.NormalizeAudio w₁ decoded p.volume = (w₂, some normalized))
    (hb : env.byteWrite w₂ normalized = (w₃, true))
    (hlen : normalized.elems.length = 2 * n + 1) (hspare : normalized.spare = b :: t) :
    airplay2.frameBody env p w recvBuf
      = env.intWrite w₃
          (airplay2.decodePairs (normalized.elems ++ [b]) ++ List.replicate n 0) := by
  have h := bytesToAudioBuffer_odd_spare normalized n b t hlen hspare
  simp only [airplay2.frameBody, hd, hn, hb, h.2, h.1]

theorem step_taskRunning {σ Client : Type} (env : airplay2.Collab σ Client)
    (s : airplay2.Sys σ Client) (e : airplay2.Event Client)
    (h : (s.step env e).taskRunning = false) :
    s.taskRunning = false ∨ e = .received .closed ∨ e = .received .quit := by
  cases e with
  | call c => exact Or.inl h
  | received r =>
    cases hrun : s.taskRunning with
    | false => exact Or.inl rfl
    | true =>
      cases r with
      | closed => exact Or.inr (Or.inl rfl)
      | quit => exact Or.inr (Or.inr rfl)
      | frame recvBuf =>
        rw [step_frame env s recvBuf hrun] at h
        split at h <;> simp [hrun] at h

theorem run_taskRunning {σ Client : Type} (env : airplay2.Collab σ Client) :
    ∀ (events : List (airplay2.Event Client)) (s : airplay2.Sys σ Client),
      s.taskRunning = true → (airplay2.Sys.run env s events).taskRunning = false →
      airplay2.Event.received .closed ∈ events ∨ airplay2.Event.received .quit ∈ events := by
  intro events
  induction events with
  | nil =>
    intro s hrun hend
    simp only [airplay2.Sys.run] at hend
    rw [hrun] at hend
    cases hend
  | cons e es ih =>
    intro s hrun hend
    simp only [airplay2.Sys.run] at hend
    cases hstep : (s.step env e).taskRunning with
    | true =>
      rcases ih (s.step env e) hstep hend with h | h
      · exact Or.inl (List.mem_cons_of_mem _ h)
      · exact Or.inr (List.mem_cons_of_mem _ h)
    | false =>
      rcases step_taskRunning env s e hstep with h | h | h
      · rw [hrun] at h
        cases h
      · exact Or.inl (by rw [h]; exact List.mem_cons_self _ _)
      · exact Or.inr (by rw [h]; exact List.mem_cons_self _ _)

theorem recording_odd_frame :
    airplay2.frameBody airplay2.recordingCollab airplay2.recordingSys.p
        airplay2.recordingSys.w { elems := [1, 2, 3], spare := [] }
      = ([("Decode", 3), ("NormalizeAudio", 3), ("byteWrite", 3)], false) :=
  frameBody_conversion_panics airplay2.recordingCollab _ _ [("Decode", 3)]
    [("Decode", 3), ("NormalizeAudio", 3)] _ _ { elems := [1, 2, 3], spare := [] }
    { elems := [1, 2, 3], spare := [] } 1 rfl rfl rfl rfl rfl

theorem recording_even_frame (p : airplay2.audioPlayer Nat) (w : List (String × Nat)) :
    airplay2.frameBody airplay2.recordingCollab p w { elems := [1, 2], spare := [] }
      = (w ++ [("Decode", 2), ("NormalizeAudio", 2), ("byteWrite", 2), ("intWrite", 2)],
          true) := by
  rw [frameBody_even airplay2.recordingCollab p w (w ++ [("Decode", 2)])
    (w ++ [("Decode", 2), ("NormalizeAudio", 2)])
    (w ++ [("Decode", 2), ("NormalizeAudio", 2), ("byteWrite", 2)])
    { elems := [1, 2], spare := [] } { elems := [1, 2], spare := [] }
    { elems := [1, 2], spare := [] } 1 rfl (by simp [airplay2.recordingCollab])
    (by simp [airplay2.recordingCollab]) rfl]
  simp [airplay2.recordingCollab, airplay2.decodePairs]

/-- C4 as stated fails: on the recording world the frame [1, 2, 3] (no spare capacity)
panics in the conversion to samples after its bytes were written; the panic is
recovered, but the byte write of the faulty frame remains, so the run with the faulty
frame before the frame [1, 2] differs from the run of the frame [1, 2] alone. -/
theorem Play_fault_leaves_earlier_calls :
    (airplay2.frameBody airplay2.recordingCollab airplay2.recordingSys.p
        airplay2.recordingSys.w { elems := [1, 2, 3], spare := [] }).2 = false ∧
    (airplay2.Sys.run airplay2.recordingCollab airplay2.recordingSys
        [.received (.frame { elems := [1, 2, 3], spare := [] }),
         .received (.frame { elems := [1, 2], spare := [] })]).w
      = [("Decode", 3), ("NormalizeAudio", 3), ("byteWrite", 3),
         ("Decode", 2), ("NormalizeAudio", 2), ("byteWrite", 2), ("intWrite", 2)] ∧
    (airplay2.Sys.run airplay2.recordingCollab airplay2.recordingSys
        [.received (.frame { elems := [1, 2], spare := [] })]).w
      = [("Decode", 2), ("NormalizeAudio", 2), ("byteWrite", 2), ("intWrite", 2)] ∧
    airplay2.Sys.run airplay2.recordingCollab airplay2.recordingSys
        [.received (.frame { elems := [1, 2, 3], spare := [] }),
         .received (.frame { elems := [1, 2], spare := [] })]
      ≠ airplay2.Sys.run airplay2.recordingCollab airplay2.recordingSys
        [.received (.frame { elems := [1, 2], spare := [] })] := by
  have h1 := step_frame_unmuted airplay2.recordingCollab airplay2.recordingSys
    { elems := [1, 2, 3], spare := [] } rfl rfl _ recording_odd_frame
  have hA : (airplay2.Sys.run airplay2.recordingCollab airplay2.recordingSys
      [.received (.frame { elems := [1, 2, 3], spare := [] }),
       .received (.frame { elems := [1, 2], spare := [] })]).w
      = [("Decode", 3), ("NormalizeAudio", 3), ("byteWrite", 3),
         ("Decode", 2), ("NormalizeAudio", 2), ("byteWrite", 2), ("intWrite", 2)] := by
    simp only [airplay2.Sys.run]
    rw [h1, step_frame_unmuted airplay2.recordingCollab _ { elems := [1, 2], spare := [] }
      rfl rfl _ (recording_even_frame _ _)]
    rfl
  have hB : (airplay2.Sys.run airplay2.recordingCollab airplay2.recordingSys
      [.received (.frame { elems := [1, 2], spare := [] })]).w
      = [("Decode", 2), ("NormalizeAudio", 2), ("byteWrite", 2), ("intWrite", 2)] := by
    simp only [airplay2.Sys.run]
    rw [step_frame_unmuted airplay2.recordingCollab _ { elems := [1, 2], spare := [] }
      rfl rfl _ (recording_even_frame _ _)]
    rfl
  refine ⟨by rw [recording_odd_frame], hA, hB, ?_⟩
  intro heq
  have hw := congrArg airplay2.Sys.w heq
  rw [hA, hB] at hw
  revert hw
  decide

/-- C4 amended: in the processing loop, a frame whose decoding, normalization, byte
write, conversion to samples or sample write panics is caught in that frame's step: the
step returns to the loop with the task running, nothing crashed and the player (with
`sessionActive`) as before; the calls after the panic are not made and what the
collaborators did before it remains in the outside world.  The events after the frame
are processed by the same loop from that state, and exactly as without the frame when
the panic left the outside world untouched.  The loop ends only on a closed data channel
or a quit value. -/
theorem Play_frame_fault_isolated {σ Client : Type} (env : airplay2.Collab σ Client) :
    (∀ (s : airplay2.Sys σ Client) (recvBuf : GoSlice),
        s.taskRunning = true → s.p.muted = false →
        (∀ w₁ : σ, env.Decode s.w recvBuf = (w₁, none) →
          s.step env (.received (.frame recvBuf)) = { s with w := w₁ }) ∧
        (∀ (w₁ w₂ : σ) (decoded : GoSlice),
          env.Decode s.w recvBuf = (w₁, some decoded) →
          env.NormalizeAudio w₁ decoded s.p.volume = (w₂, none) →
          s.step env (.received (.frame recvBuf)) = { s with w := w₂ }) ∧
        (∀ (w₁ w₂ w₃ : σ) (decoded normalized : GoSlice),
          env.Decode s.w recvBuf = (w₁, some decoded) →
          env.NormalizeAudio w₁ decoded s.p.volume = (w₂, some normalized) →
          env.byteWrite w₂ normalized = (w₃, false) →
          s.step env (.received (.frame recvBuf)) = { s with w := w₃ }) ∧
        (∀ (w₁ w₂ w₃ : σ) (decoded normalized : GoSlice) (n : Nat),
          env.Decode s.w recvBuf = (w₁, some decoded) →
          env.NormalizeAudio w₁ decoded s.p.volume = (w₂, some normalized) →
          env.byteWrite w₂ normalized = (w₃, true) →
          normalized.elems.length = 2 * n + 1 → normalized.spare = [] →
          s.step env (.received (.frame recvBuf)) = { s with w := w₃ }) ∧
        (∀ (w₁ w₂ w₃ w₄ : σ) (decoded normalized : GoSlice) (n : Nat),
          env.Decode s.w recvBuf = (w₁, some decoded) →
          env.NormalizeAudio w₁ decoded s.p.volume = (w₂, some normalized) →
          env.byteWrite w₂ normalized = (w₃, true) →
          normalized.elems.length = 2 * n →
          env.intWrite w₃ (airplay2.decodePairs normalized.elems ++ List.replicate n 0)
            = (w₄, false) →
          s.step env (.received (.frame recvBuf)) = { s with w := w₄ }) ∧
        (∀ (w₁ w₂ w₃ w₄ : σ) (decoded normalized : GoSlice) (n : Nat) (b : Byte)
            (t : List Byte),
          env.Decode s.w recvBuf = (w₁, some decoded) →
          env.NormalizeAudio w₁ decoded s.p.volume = (w₂, some normalized) →
          env.byteWrite w₂ normalized = (w₃, true) →
          normalized.elems.length = 2 * n + 1 → normalized.spare = b :: t →
          env.intWrite w₃
              (airplay2.decodePairs (normalized.elems ++ [b]) ++ List.replicate n 0)
            = (w₄, false) →
          s.step env (.received (.frame recvBuf)) = { s with w := w₄ })) ∧
    (∀ (s : airplay2.Sys σ Client) (recvBuf : GoSlice)
        (rest : List (airplay2.Event Client)),
        airplay2.Sys.run env s (.received (.frame recvBuf) :: rest)
          = airplay2.Sys.run env (s.step env (.received (.frame recvBuf))) rest) ∧
    (∀ (s : airplay2.Sys σ Client) (recvBuf : GoSlice)
        (rest : List (airplay2.Event Client)),
        s.taskRunning = true → s.p.muted = false →
        env.Decode s.w recvBuf = (s.w, none) →
        airplay2.Sys.run env s (.received (.frame recvBuf) :: rest)
          = airplay2.Sys.run env s rest) ∧
    (∀ (s : airplay2.Sys σ Client) (r : airplay2.Received), s.taskRunning = true →
        ((airplay2.loopIteration env s r).taskRunning = false ↔
          r = .closed ∨ r = .quit)) ∧
    (∀ (s : airplay2.Sys σ Client) (events : List (airplay2.Event Client)),
        s.taskRunning = true → (airplay2.Sys.run env s events).taskRunning = false →
        airplay2.Event.received .closed ∈ events ∨
          airplay2.Event.received .quit ∈ events) := by
  refine ⟨?_, fun s recvBuf rest => rfl, ?_, ?_, fun s events => run_taskRunning env events s⟩
  · intro s recvBuf hrun hmuted
    refine ⟨?_, ?_, ?_, ?_, ?_, ?_⟩
    · intro w₁ hd
      exact step_frame_unmuted env s recvBuf hrun hmuted _
        (frameBody_Decode_panics env s.p s.w w₁ recvBuf hd)
    · intro w₁ w₂ decoded hd hn
      exact step_frame_unmuted env s recvBuf hrun hmuted _
        (frameBody_NormalizeAudio_panics env s.p s.w w₁ w₂ recvBuf decoded hd hn)
    · intro w₁ w₂ w₃ decoded normalized hd hn hb
      exact step_frame_unmuted env s recvBuf hrun hmuted _
        (frameBody_byteWrite_panics env s.p s.w w₁ w₂ w₃ recvBuf decoded normalized
          hd hn hb)
    · intro w₁ w₂ w₃ decoded normalized n hd hn hb hlen hspare
      exact step_frame_unmuted env s recvBuf hrun hmuted _
        (frameBody_conversion_panics env s.p s.w w₁ w₂ w₃ recvBuf decoded normalized n
          hd hn hb hlen hspare)
    · intro w₁ w₂ w₃ w₄ decoded normalized n hd hn hb hlen hi
      exact step_frame_unmuted env s recvBuf hrun hmuted (w₄, false)
        ((frameBody_even env s.p s.w w₁ w₂ w₃ recvBuf decoded normalized n
          hd hn hb hlen).trans hi)
    · intro w₁ w₂ w₃ w₄ decoded normalized n b t hd hn hb hlen hspare hi
      exact step_frame_unmuted env s recvBuf hrun hmuted (w₄, false)
        ((frameBody_odd_spare env s.p s.w w₁ w₂ w₃ recvBuf decoded normalized n b t
          hd hn hb hlen hspare).trans hi)
  · intro s recvBuf rest hrun hmuted hd
    have h := step_frame_unmuted env s recvBuf hrun hmuted _
      (frameBody_Decode_panics env s.p s.w s.w recvBuf hd)
    simp only [airplay2.Sys.run]
    rw [h]
  · intro s r hrun
    cases r with
    | closed => simp [airplay2.loopIteration]
    | quit => simp [airplay2.loopIteration]
    | frame recvBuf =>
      simp only [airplay2.loopIteration]
      split <;> simp [hrun]

/-- Witness for the amended C4 on the recording world: the frame [1, 2, 3] panics in
the conversion after its byte write, which remains; the frame [0, 7] panics in `Decode`
with the world untouched, and the run goes on as without it. -/
theorem Play_frame_fault_isolated_witness :
    airplay2.recordingSys.step airplay2.recordingCollab
        (.received (.frame { elems := [1, 2, 3], spare := [] }))
      = { airplay2.recordingSys with
          w := [("Decode", 3), ("NormalizeAudio", 3), ("byteWrite", 3)] } ∧
    airplay2.Sys.run airplay2.recordingCollab airplay2.recordingSys
        [.received (.frame { elems := [0, 7], spare := [] }),
         .received (.frame { elems := [1, 2], spare := [] })]
      = airplay2.Sys.run airplay2.recordingCollab airplay2.recordingSys
        [.received (.frame { elems := [1, 2], spare := [] })] :=
  have h := Play_frame_fault_isolated airplay2.recordingCollab
  ⟨(h.1 airplay2.recordingSys { elems := [1, 2, 3], spare := [] } rfl rfl).2.2.2.1
      [("Decode", 3)] [("Decode", 3), ("NormalizeAudio", 3)]
      [("Decode", 3), ("NormalizeAudio", 3), ("byteWrite", 3)]
      { elems := [1, 2, 3], spare := [] } { elems := [1, 2, 3], spare := [] } 1
      rfl rfl rfl rfl rfl,
    h.2.2.1 airplay2.recordingSys { elems := [0, 7], spare := [] }
      [.received (.frame { elems := [1, 2], spare := [] })] rfl rfl rfl⟩

/-- C5 as stated fails: on the recording world the unmuted player receives the frame
[1, 2, 3] (no spare capacity); it is decoded, normalized and written to the byte
writer, the conversion to samples panics, and nothing is written to the int-sample
writer. -/
theorem Play_unmuted_odd_frame_not_sampled :
    airplay2.recordingSys.p.muted = false ∧ airplay2.recordingSys.taskRunning = true ∧
    (airplay2.recordingSys.step airplay2.recordingCollab
        (.received (.frame { elems := [1, 2, 3], spare := [] }))).w
      = [("Decode", 3), ("NormalizeAudio", 3), ("byteWrite", 3)] ∧
    (∀ k : Nat, ("intWrite", k) ∉
      (airplay2.recordingSys.step airplay2.recordingCollab
        (.received (.frame { elems := [1, 2, 3], spare := [] }))).w) := by
  have h := step_frame_unmuted airplay2.recordingCollab airplay2.recordingSys
    { elems := [1, 2, 3], spare := [] } rfl rfl _ recording_odd_frame
  refine ⟨rfl, rfl, by rw [h], ?_⟩
  intro k
  rw [h]
  simp

/-- C5 amended: a frame received while `muted` is true is dropped without any
collaborator call (no decode, nothing written to either writer: the whole state is as
before) and the task keeps running; `SetMute` sets the flag the loop reads.  A frame
received while `muted` is false whose decoding, normalization and byte write return is
decoded, normalized and written to the byte writer; its samples go to the int-sample
writer when the normalized buffer has even length (the pair decode, then the zero
samples of the conversion) or odd length with spare capacity; with odd length and no
spare capacity the conversion panics and the int-sample writer is not called. -/
theorem Play_muted_frame_dropped {σ Client : Type} (env : airplay2.Collab σ Client) :
    (∀ (s : airplay2.Sys σ Client) (recvBuf : GoSlice),
        s.taskRunning = true → s.p.muted = true →
        s.step env (.received (.frame recvBuf)) = s) ∧
    (∀ (s : airplay2.Sys σ Client) (isMuted : Bool),
        (s.step env (.call (.SetMute isMuted))).p.muted = isMuted ∧
        (s.step env (.call (.SetMute isMuted))).taskRunning = s.taskRunning) ∧
    (∀ (s : airplay2.Sys σ Client) (recvBuf : GoSlice)
        (rest : List (airplay2.Event Client)), s.taskRunning = true →
        airplay2.Sys.run env s (.call (.SetMute true) :: .received (.frame recvBuf) :: rest)
          = airplay2.Sys.run env s (.call (.SetMute true) :: rest)) ∧
    (∀ (s : airplay2.Sys σ Client) (recvBuf decoded normalized : GoSlice) (w₁ w₂ w₃ : σ),
        s.taskRunning = true → s.p.muted = false →
        env.Decode s.w recvBuf = (w₁, some decoded) →
        env.NormalizeAudio w₁ decoded s.p.volume = (w₂, some normalized) →
        env.byteWrite w₂ normalized = (w₃, true) →
        (∀ n : Nat, normalized.elems.length = 2 * n →
          s.step env (.received (.frame recvBuf))
            = { s with w := (env.intWrite w₃
                (airplay2.decodePairs normalized.elems ++ List.replicate n 0)).1 }) ∧
        (∀ (n : Nat) (b : Byte) (t : List Byte),
          normalized.elems.length = 2 * n + 1 → normalized.spare = b :: t →
          s.step env (.received (.frame recvBuf))
            = { s with w := (env.intWrite w₃
                (airplay2.decodePairs (normalized.elems ++ [b])
                  ++ List.replicate n 0)).1 }) ∧
        (∀ n : Nat, normalized.elems.length = 2 * n + 1 → normalized.spare = [] →
          s.step env (.received (.frame recvBuf)) = { s with w := w₃ })) := by
  have hmute : ∀ (s : airplay2.Sys σ Client) (isMuted : Bool),
      (s.step env (.call (.SetMute isMuted))).p.muted = isMuted ∧
      (s.step env (.call (.SetMute isMuted))).taskRunning = s.taskRunning := by
    intro s isMuted
    simp only [airplay2.Sys.step, airplay2.Call.run, airplay2.SetMute]
    split <;> simp
  have hdrop : ∀ (s : airplay2.Sys σ Client) (recvBuf : GoSlice),
      s.taskRunning = true → s.p.muted = true →
      s.step env (.received (.frame recvBuf)) = s := by
    intro s recvBuf hrun hmuted
    rw [step_frame env s recvBuf hrun, if_pos hmuted]
  refine ⟨hdrop, hmute, ?_, ?_⟩
  · intro s recvBuf rest hrun
    have h1 := hmute s true
    simp only [airplay2.Sys.run]
    rw [hdrop _ recvBuf (by rw [h1.2]; exact hrun) h1.1]
  · intro s recvBuf decoded normalized w₁ w₂ w₃ hrun hmuted hd hn hb
    refine ⟨?_, ?_, ?_⟩
    · intro n hlen
      exact step_frame_unmuted env s recvBuf hrun hmuted _
        (frameBody_even env s.p s.w w₁ w₂ w₃ recvBuf decoded normalized n hd hn hb hlen)
    · intro n b t hlen hspare
      exact step_frame_unmuted env s recvBuf hrun hmuted _
        (frameBody_odd_spare env s.p s.w w₁ w₂ w₃ recvBuf decoded normalized n b t
          hd hn hb hlen hspare)
    · intro n hlen hspare
      exact step_frame_unmuted env s recvBuf hrun hmuted _
        (frameBody_conversion_panics env s.p s.w w₁ w₂ w₃ recvBuf decoded normalized n
          hd hn hb hlen hspare)

/-- Witness for the amended C5: on the recording world, a frame after `SetMute(true)`
leaves no trace, and the frame [1, 2] received by the unmuted player is decoded,
normalized, written to the byte writer and, as the samples [0x0201, 0], to the
int-sample writer. -/
theorem Play_muted_frame_dropped_witness :
    airplay2.Sys.run airplay2.recordingCollab airplay2.recordingSys
        [.call (.SetMute true), .received (.frame { elems := [1, 2], spare := [] })]
      = airplay2.Sys.run airplay2.recordingCollab airplay2.recordingSys
        [.call (.SetMute true)] ∧
    airplay2.recordingSys.step airplay2.recordingCollab
        (.received (.frame { elems := [1, 2], spare := [] }))
      = { airplay2.recordingSys with
          w := (airplay2.recordingCollab.intWrite
            [("Decode", 2), ("NormalizeAudio", 2), ("byteWrite", 2)]
            (airplay2.decodePairs [1, 2] ++ List.replicate 1 0)).1 } :=
  have h := Play_muted_frame_dropped airplay2.recordingCollab
  ⟨h.2.2.1 airplay2.recordingSys { elems := [1, 2], spare := [] } [] rfl,
    (h.2.2.2 airplay2.recordingSys { elems := [1, 2], spare := [] }
      { elems := [1, 2], spare := [] } { elems := [1, 2], spare := [] }
      [("Decode", 2)] [("Decode", 2), ("NormalizeAudio", 2)]
      [("Decode", 2), ("NormalizeAudio", 2), ("byteWrite", 2)]
      rfl rfl rfl rfl rfl).1 1 rfl⟩

end Ledfx
